import Mathlib

/-!
Shallow embedding of the WAVM WebAssembly module validator
(`src/Lib/IR/Validate.cpp`) and proofs about it.

Conventions:
- C++ `std::vector` stacks (`stack`, `controlStack`) are Lean lists with the
  HEAD as the top (`back()` in C++); `stack[stack.size() - depth - 1]` becomes
  list index `depth`.
- Exceptions become `Except VErr`; `throw ValidationException(msg)` is
  `.error (.validation msg)` and `wavmAssert(cond)` failure is
  `.error (.assertion msg)` (asserts abort instead of throwing a
  `ValidationException` in the source, so the two are kept distinct).
- C++ `U64`/`Uptr` values are `Nat`; the `UINT64_MAX` sentinel is the
  explicit constant `U64_MAX`.
- Error message strings keep the literal prefix from the source; the
  stringified-expression and numeric suffixes appended by the
  `VALIDATE_UNLESS`/`VALIDATE_INDEX` macros are elided.
-/

namespace WAVM

/-- Value types of the WAVM IR (`WAVM/IR/Types.h`).  `any` is the wildcard
used as an expected type that accepts every operand (`drop`, untyped
`select`); `none` is the bottom / stack-empty sentinel produced when reading
the operand stack in unreachable code. -/
inductive ValueType where
  | i32
  | i64
  | f32
  | f64
  | v128
  | anyref
  | funcref
  | nullref
  | any
  | none
deriving DecidableEq, Inhabited

def ValueType.asString : ValueType → String
  | .i32 => "i32"
  | .i64 => "i64"
  | .f32 => "f32"
  | .f64 => "f64"
  | .v128 => "v128"
  | .anyref => "anyref"
  | .funcref => "funcref"
  | .nullref => "nullref"
  | .any => "any"
  | .none => "none"

/-- Modelled from the spec: `isNumericType` from `WAVM/IR/Types.h` (not among
the provided sources); the numeric value types are the non-reference,
non-synthetic ones. -/
def isNumericType : ValueType → Bool
  | .i32 | .i64 | .f32 | .f64 | .v128 => true
  | _ => false

/-- Reference types (`WAVM/IR/Types.h`): the subset `funcref`, `anyref`,
plus the `none` sentinel. -/
inductive ReferenceType where
  | funcref
  | anyref
  | none
deriving DecidableEq, Inhabited

/-- Modelled from the spec: `asValueType` from `WAVM/IR/Types.h` (not among
the provided sources) lifts a reference type to the corresponding value
type. -/
def asValueType : ReferenceType → ValueType
  | .funcref => .funcref
  | .anyref => .anyref
  | .none => .none

/-- Modelled from the spec: `isSubtype(actual, expected)` from
`WAVM/IR/Types.h`, which is not among the provided sources.  Spec §3/§9 give
`nullref ≤ funcref`, `nullref ≤ anyref`, `funcref ≤ anyref`, numeric types
invariant, and a bottom type below every type; `Validate.cpp`'s own comment
in `peekAndValidateOperand` ("pop a bottom type that is a subtype of all
other types") identifies `none` as that bottom, and `drop` / untyped
`select` use `any` as an expected type that every operand satisfies.  The
spec's `any ≤ T for all T` clause is kept as well. -/
def isSubtype : ValueType → ValueType → Bool
  | .none, _ => true
  | .any, _ => true
  | _, .any => true
  | .nullref, .funcref => true
  | .nullref, .anyref => true
  | .funcref, .anyref => true
  | actual, expected => actual = expected

/-- The boolean feature flags of `IR::FeatureSpec` that the validator
consults. -/
structure FeatureSpec where
  mvp : Bool
  simd : Bool
  referenceTypes : Bool
  multipleResultsAndBlockParams : Bool
  sharedTables : Bool
  atomics : Bool
  exceptionHandling : Bool
  importExportMutableGlobals : Bool
  requireSharedFlagForAtomicOperators : Bool
deriving DecidableEq, Inhabited

/-- `IR::SizeConstraints`: 64-bit min/max bounds; `max = U64_MAX` means
unbounded. -/
structure SizeConstraints where
  min : Nat
  max : Nat
deriving DecidableEq, Inhabited

def U64_MAX : Nat := 2 ^ 64 - 1

structure TableType where
  elementType : ReferenceType
  isShared : Bool
  size : SizeConstraints
deriving DecidableEq, Inhabited

structure MemoryType where
  isShared : Bool
  size : SizeConstraints
deriving DecidableEq, Inhabited

structure GlobalType where
  isMutable : Bool
  valueType : ValueType
deriving DecidableEq, Inhabited

/-- `IR::FunctionType`: an ordered parameter tuple and result tuple. -/
structure FunctionType where
  params : List ValueType
  results : List ValueType
deriving DecidableEq, Inhabited

/-- `IR::ExceptionType`: the parameter tuple of an exception type. -/
structure ExceptionType where
  params : List ValueType
deriving DecidableEq, Inhabited

/-- `IR::IndexedBlockType`: the three encodings of a control structure's
signature. -/
inductive IndexedBlockType where
  | noParametersOrResult
  | oneResult (resultType : ValueType)
  | functionType (index : Nat)
deriving DecidableEq, Inhabited

/-- `IR::InitializerExpression`.  The constant payloads (numeric literal,
v128 bytes) are never read by the validator and are omitted; `ref` is the
global/function index operand of `global_get` / `ref_func`. -/
inductive InitializerExpression where
  | i32_const
  | i64_const
  | f32_const
  | f64_const
  | v128_const
  | global_get (ref : Nat)
  | ref_null
  | ref_func (ref : Nat)
  | invalid
deriving DecidableEq, Inhabited

/-- `IR::ExternKind`. -/
inductive ExternKind where
  | function
  | table
  | memory
  | global
  | exceptionType
  | invalid
deriving DecidableEq, Inhabited

structure Export where
  name : String
  kind : ExternKind
  index : Nat
deriving DecidableEq, Inhabited

/-- An `IR::IndexSpace`: the imported entries followed by the module's own
definitions.  Entries are stored as their declared types (the validator reads
nothing else from them). -/
structure IndexSpace (α : Type) where
  imports : List α
  defs : List α
deriving DecidableEq, Inhabited

def IndexSpace.size {α : Type} (s : IndexSpace α) : Nat :=
  s.imports.length + s.defs.length

/-- `IndexSpace::getType(index)`: imports first, then defs.  The C++ accessor
assumes the index is in bounds; out-of-bounds reads yield `default`. -/
def IndexSpace.getType {α : Type} [Inhabited α] (s : IndexSpace α) (index : Nat) : α :=
  if index < s.imports.length then s.imports.getD index default
  else s.defs.getD (index - s.imports.length) default

/-- `IR::FunctionDef`; `type` is the index of the function's type in
`module.types` (`IndexedFunctionType::index`). -/
structure FunctionDef where
  type : Nat
  nonParameterLocalTypes : List ValueType
  branchTables : List (List Nat)
deriving DecidableEq, Inhabited

/-- The slice of `IR::Module` read by the validator.  Function entries are
their type indices into `types`; `imports` is the flat per-module import
list (`module.imports` in `Module.h`), of which the validator reads only the
length. -/
structure Module where
  featureSpec : FeatureSpec
  types : List FunctionType
  functions : IndexSpace Nat
  tables : IndexSpace TableType
  memories : IndexSpace MemoryType
  globals : IndexSpace GlobalType
  exceptionTypes : IndexSpace ExceptionType
  exports : List Export
  imports : List ExternKind
deriving Inhabited

/-- The implementation-defined limits `IR::maxTableElems`,
`IR::maxMemoryPages`, `IR::maxReturnValues` (`WAVM/IR/IR.h`, not among the
provided sources; the spec leaves them abstract), passed as parameters. -/
structure Limits where
  maxTableElems : Nat
  maxMemoryPages : Nat
  maxReturnValues : Nat
deriving DecidableEq, Inhabited

/-- Validation failure: `ValidationException` messages are `.validation`;
`wavmAssert` failures (which abort rather than throw in the source) are
`.assertion`. -/
inductive VErr where
  | validation (message : String)
  | assertion (message : String)
deriving DecidableEq, Inhabited

/-- `validate(const FeatureSpec&, ValueType)`. -/
def validateValueType (featureSpec : FeatureSpec) (valueType : ValueType) : Except VErr Unit :=
  let isValid :=
    match valueType with
    | .i32 | .i64 | .f32 | .f64 => featureSpec.mvp
    | .v128 => featureSpec.simd
    | .anyref | .funcref => featureSpec.referenceTypes
    | .none | .any | .nullref => false
  if isValid then .ok () else .error (.validation "invalid value type")

/-- The local `U64 max = size.max == UINT64_MAX ? maxMax : size.max` of
`validate(SizeConstraints, U64)`. -/
def effectiveMax (size : SizeConstraints) (maxMax : Nat) : Nat :=
  if size.max = U64_MAX then maxMax else size.max

/-- `validate(SizeConstraints, U64)`. -/
def validateSizeConstraints (size : SizeConstraints) (maxMax : Nat) : Except VErr Unit :=
  if size.min > effectiveMax size maxMax then .error (.validation "disjoint size bounds: ")
  else if effectiveMax size maxMax > maxMax then
    .error (.validation "maximum size exceeds limit: ")
  else .ok ()

/-- `validate(const FeatureSpec&, ReferenceType)`. -/
def validateReferenceType (featureSpec : FeatureSpec) (type : ReferenceType) : Except VErr Unit :=
  let isValid :=
    match type with
    | .funcref => featureSpec.mvp
    | .anyref => featureSpec.referenceTypes
    | .none => false
  if isValid then .ok () else .error (.validation "invalid reference type")

/-- `validate(const Module&, TableType)`; `maxTableElems` is passed
explicitly (see `Limits`). -/
def validateTableType (featureSpec : FeatureSpec) (maxTableElems : Nat) (type : TableType) :
    Except VErr Unit :=
  match validateReferenceType featureSpec type.elementType with
  | .error e => .error e
  | .ok () =>
    match validateSizeConstraints type.size maxTableElems with
    | .error e => .error e
    | .ok () =>
      if type.isShared then
        if featureSpec.sharedTables = false then
          .error (.validation "shared table requires sharedTables feature")
        else if type.size.max = U64_MAX then
          .error (.validation "shared tables must have a maximum size: ")
        else .ok ()
      else .ok ()

/-- `validate(const Module&, MemoryType)`. -/
def validateMemoryType (featureSpec : FeatureSpec) (maxMemoryPages : Nat) (type : MemoryType) :
    Except VErr Unit :=
  match validateSizeConstraints type.size maxMemoryPages with
  | .error e => .error e
  | .ok () =>
    if type.isShared then
      if featureSpec.atomics = false then
        .error (.validation "shared memory requires atomics feature")
      else if type.size.max = U64_MAX then
        .error (.validation "shared memories must have a maximum size: ")
      else .ok ()
    else .ok ()

/-- `validate(const FeatureSpec&, GlobalType)`. -/
def validateGlobalType (featureSpec : FeatureSpec) (type : GlobalType) : Except VErr Unit :=
  validateValueType featureSpec type.valueType

/-- `validate(const FeatureSpec&, TypeTuple)`. -/
def validateTypeTuple (featureSpec : FeatureSpec) : List ValueType → Except VErr Unit
  | [] => .ok ()
  | t :: rest =>
    match validateValueType featureSpec t with
    | .error e => .error e
    | .ok () => validateTypeTuple featureSpec rest

/-- `validateType<ValueType>(expected, actual, context)`. -/
def validateType (expectedType actualType : ValueType) (context : String) : Except VErr Unit :=
  if isSubtype actualType expectedType then .ok ()
  else
    .error (.validation ("type mismatch: expected " ++ expectedType.asString ++ " but got "
      ++ actualType.asString ++ " in " ++ context))

/-- `validateGlobalIndex`. -/
def validateGlobalIndex (module : Module) (globalIndex : Nat)
    (mustBeMutable mustBeImmutable mustBeImport : Bool) (context : String) :
    Except VErr ValueType :=
  if globalIndex ≥ module.globals.size then
    .error (.validation "invalid index: globalIndex must be less than module.globals.size()")
  else
    let globalType := module.globals.getType globalIndex
    if mustBeMutable = true ∧ globalType.isMutable = false then
      .error (.validation "attempting to mutate immutable global")
    else if mustBeImport = true ∧ globalIndex ≥ module.globals.imports.length then
      .error (.validation
        "global variable initializer expression may only access imported globals")
    else if mustBeImmutable = true ∧ globalType.isMutable = true then
      .error (.validation
        "global variable initializer expression may only access immutable globals")
    else .ok globalType.valueType

/-- `validateFunctionIndex`.  `module.types[...]` is an unchecked access in
the source; out-of-bounds type indices read `default`. -/
def validateFunctionIndex (module : Module) (functionIndex : Nat) : Except VErr FunctionType :=
  if functionIndex ≥ module.functions.size then
    .error (.validation "invalid index: functionIndex must be less than module.functions.size()")
  else .ok (module.types.getD (module.functions.getType functionIndex) default)

/-- `validateBlockType`. -/
def validateBlockType (module : Module) : IndexedBlockType → Except VErr FunctionType
  | .noParametersOrResult => .ok ⟨[], []⟩
  | .oneResult resultType =>
    match validateValueType module.featureSpec resultType with
    | .error e => .error e
    | .ok () => .ok ⟨[], [resultType]⟩
  | .functionType index =>
    if index ≥ module.types.length then
      .error (.validation "invalid index: type.index must be less than module.types.size()")
    else
      let functionType := module.types.getD index default
      if 0 < functionType.params.length
          ∧ module.featureSpec.multipleResultsAndBlockParams = false then
        .error (.validation "block has params, but \"multivalue\" extension is disabled")
      else if 1 < functionType.results.length
          ∧ module.featureSpec.multipleResultsAndBlockParams = false then
        .error (.validation "block has multiple results, but \"multivalue\" extension is disabled")
      else .ok functionType

/-- `validateFunctionType`; `maxReturnValues` is passed explicitly (see
`Limits`). -/
def validateFunctionType (module : Module) (maxReturnValues : Nat) (typeIndex : Nat) :
    Except VErr FunctionType :=
  if typeIndex ≥ module.types.length then
    .error (.validation "invalid index: type.index must be less than module.types.size()")
  else
    let functionType := module.types.getD typeIndex default
    if functionType.results.length > maxReturnValues then
      .error (.validation "function has more return values than WAVM can support")
    else .ok functionType

/-- `validateInitializer`. -/
def validateInitializer (module : Module) (expression : InitializerExpression)
    (expectedType : ValueType) (context : String) : Except VErr Unit :=
  match expression with
  | .i32_const => validateType expectedType .i32 context
  | .i64_const => validateType expectedType .i64 context
  | .f32_const => validateType expectedType .f32 context
  | .f64_const => validateType expectedType .f64 context
  | .v128_const => validateType expectedType .v128 context
  | .global_get ref =>
    match validateGlobalIndex module ref false true true
        "initializer expression global index" with
    | .error e => .error e
    | .ok globalValueType => validateType expectedType globalValueType context
  | .ref_null => validateType expectedType .nullref context
  | .ref_func ref =>
    match validateFunctionIndex module ref with
    | .error e => .error e
    | .ok _ => validateType expectedType .funcref context
  | .invalid => .error (.validation "invalid initializer expression")

/-- `FunctionValidationContext::ControlContext::Type`. -/
inductive ControlContextType where
  | function
  | block
  | ifThen
  | ifElse
  | loop
  | try_
  | catch_
deriving DecidableEq, Inhabited

/-- `FunctionValidationContext::ControlContext`.  `outerStackSize` is the
operand-stack height captured at frame entry; `params` is the tuple a branch
to this frame delivers. -/
structure ControlContext where
  type : ControlContextType
  outerStackSize : Nat
  params : List ValueType
  results : List ValueType
  isReachable : Bool
  elseParams : List ValueType
deriving DecidableEq, Inhabited

/-- The mutable state of a `FunctionValidationContext` together with its
immutable construction inputs.  Both `controlStack` and `stack` are lists
with the head as the C++ `back()` (the top). -/
structure FVContext where
  module : Module
  functionDef : FunctionDef
  functionType : FunctionType
  locals : List ValueType
  controlStack : List ControlContext
  stack : List ValueType

/-- `FunctionValidationContext::peekAndValidateOperand`, with the top control
frame passed explicitly (callers assert the control stack is non-empty).
When the operand stack is at or below `outerStackSize + operandDepth` and the
frame is unreachable, the bottom type `none` is produced. -/
def peekAndValidateOperand (frame : ControlContext) (stack : List ValueType) (context : String)
    (operandDepth : Nat) (expectedType : ValueType) : Except VErr ValueType :=
  let actualTypeE : Except VErr ValueType :=
    if frame.outerStackSize + operandDepth < stack.length then
      .ok (stack.getD operandDepth default)
    else if frame.isReachable = false then
      .ok ValueType.none
    else
      .error (.validation ("type mismatch: expected " ++ expectedType.asString
        ++ " but stack was empty in " ++ context ++ " operand"))
  match actualTypeE with
  | .error e => .error e
  | .ok actualType =>
    if isSubtype actualType expectedType then .ok actualType
    else
      .error (.validation ("type mismatch: expected " ++ expectedType.asString ++ " but got "
        ++ actualType.asString ++ " in " ++ context ++ " operand"))

/-- `FunctionValidationContext::popAndValidateOperand`: peek at depth 0, then
pop only if the stack is above the current frame's floor. -/
def popAndValidateOperand (frame : ControlContext) (stack : List ValueType) (context : String)
    (expectedType : ValueType) : Except VErr (ValueType × List ValueType) :=
  match peekAndValidateOperand frame stack context 0 expectedType with
  | .error e => .error e
  | .ok actualType =>
    if frame.outerStackSize < stack.length then .ok (actualType, stack.tail)
    else .ok (actualType, stack)

/-- `FunctionValidationContext::popAndValidateOperands`: the expected types
are popped last-to-first; this helper receives them already reversed. -/
def popAndValidateOperandsRev (frame : ControlContext) (stack : List ValueType)
    (context : String) : List ValueType → Except VErr (List ValueType)
  | [] => .ok stack
  | expectedType :: rest =>
    match popAndValidateOperand frame stack context expectedType with
    | .error e => .error e
    | .ok (_, stack') => popAndValidateOperandsRev frame stack' context rest

/-- `FunctionValidationContext::popAndValidateTypeTuple`. -/
def popAndValidateTypeTuple (frame : ControlContext) (stack : List ValueType) (context : String)
    (expectedTypes : List ValueType) : Except VErr (List ValueType) :=
  popAndValidateOperandsRev frame stack context expectedTypes.reverse

/-- Loop of `FunctionValidationContext::peekAndValidateTypeTuple`: element
`operandIndex` is peeked at depth `size - operandIndex - 1`, so the first
tuple entry is the deepest. -/
def peekAndValidateTypeTupleAux (frame : ControlContext) (stack : List ValueType)
    (context : String) : List ValueType → Nat → Except VErr Unit
  | [], _ => .ok ()
  | expectedType :: rest, depth =>
    match peekAndValidateOperand frame stack context depth expectedType with
    | .error e => .error e
    | .ok _ => peekAndValidateTypeTupleAux frame stack context rest (depth - 1)

/-- `FunctionValidationContext::peekAndValidateTypeTuple`. -/
def peekAndValidateTypeTuple (frame : ControlContext) (stack : List ValueType) (context : String)
    (expectedTypes : List ValueType) : Except VErr Unit :=
  peekAndValidateTypeTupleAux frame stack context expectedTypes (expectedTypes.length - 1)

/-- `FunctionValidationContext::pushOperand` iterated over a tuple
left-to-right (`pushOperandTuple`), so the tuple's last element ends up on
top. -/
def pushOperandTuple (stack : List ValueType) : List ValueType → List ValueType
  | [] => stack
  | t :: rest => pushOperandTuple (t :: stack) rest

/-- `std::vector::resize` on the operand stack (used by `enterUnreachable`):
keep the bottom `n` entries; if the stack is shorter than `n` (impossible
under the validator's stack-floor invariant), pad with value-initialized
entries. -/
def resizeStack (stack : List ValueType) (n : Nat) : List ValueType :=
  if n ≤ stack.length then stack.drop (stack.length - n)
  else List.replicate (n - stack.length) ValueType.none ++ stack

/-- The `"stack was not empty at end of control structure: "` message built by
`validateStackEmptyAtEndOfControlStructure`, listing the entries above the
frame's floor bottom-to-top. -/
def stackNotEmptyMessage (frame : ControlContext) (stack : List ValueType) : String :=
  "stack was not empty at end of control structure: "
    ++ String.intercalate ", "
      (((stack.take (stack.length - frame.outerStackSize)).reverse).map ValueType.asString)

def FVContext.pushOperand (ctx : FVContext) (type : ValueType) : FVContext :=
  { ctx with stack := type :: ctx.stack }

def FVContext.pushTuple (ctx : FVContext) (typeTuple : List ValueType) : FVContext :=
  { ctx with stack := pushOperandTuple ctx.stack typeTuple }

/-- `FunctionValidationContext::pushControlStack`. -/
def FVContext.pushControlStack (ctx : FVContext) (type : ControlContextType)
    (params results : List ValueType) (elseParams : List ValueType := []) : FVContext :=
  { ctx with controlStack :=
      ⟨type, ctx.stack.length, params, results, true, elseParams⟩ :: ctx.controlStack }

/-- Ctx-level `popAndValidateOperand`; the `wavmAssert(controlStack.size())`
inside `peekAndValidateOperand` becomes the `.assertion` branch. -/
def FVContext.popOperand (ctx : FVContext) (context : String) (expectedType : ValueType) :
    Except VErr (ValueType × FVContext) :=
  match ctx.controlStack with
  | [] => .error (.assertion "controlStack.size()")
  | frame :: _ =>
    match popAndValidateOperand frame ctx.stack context expectedType with
    | .error e => .error e
    | .ok (actualType, stack') => .ok (actualType, { ctx with stack := stack' })

/-- Ctx-level `popAndValidateTypeTuple`. -/
def FVContext.popTuple (ctx : FVContext) (context : String) (expectedTypes : List ValueType) :
    Except VErr FVContext :=
  match ctx.controlStack with
  | [] => .error (.assertion "controlStack.size()")
  | frame :: _ =>
    match popAndValidateTypeTuple frame ctx.stack context expectedTypes with
    | .error e => .error e
    | .ok stack' => .ok { ctx with stack := stack' }

/-- `FunctionValidationContext::enterUnreachable`: truncate the operand stack
to the current frame's floor and mark the frame unreachable. -/
def FVContext.enterUnreachable (ctx : FVContext) : Except VErr FVContext :=
  match ctx.controlStack with
  | [] => .error (.assertion "controlStack.size()")
  | frame :: rest =>
    .ok { ctx with
          controlStack := ({ frame with isReachable := false }) :: rest,
          stack := resizeStack ctx.stack frame.outerStackSize }

/-- `FunctionValidationContext::getBranchTargetByDepth` (the second bounds
check inside `validateBranchDepth` repeats `VALIDATE_INDEX` and is dead
code). -/
def FVContext.getBranchTargetByDepth (ctx : FVContext) (depth : Nat) :
    Except VErr ControlContext :=
  if depth ≥ ctx.controlStack.length then
    .error (.validation "invalid index: depth must be less than controlStack.size()")
  else .ok (ctx.controlStack.getD depth default)

/-- `FunctionValidationContext::validateLocalIndex`. -/
def FVContext.validateLocalIndex (ctx : FVContext) (localIndex : Nat) : Except VErr ValueType :=
  if localIndex ≥ ctx.locals.length then
    .error (.validation "invalid index: localIndex must be less than locals.size()")
  else .ok (ctx.locals.getD localIndex default)

/-- `FunctionValidationContext::validateCatch`: pop the current frame's
results, require the stack to be back at the frame's floor, then flip a
`try`/`catch` frame to a reachable `catch` frame. -/
def FVContext.validateCatch (ctx : FVContext) : Except VErr FVContext :=
  match ctx.controlStack with
  | [] => .error (.assertion "controlStack.size()")
  | frame :: rest =>
    match popAndValidateTypeTuple frame ctx.stack "try result" frame.results with
    | .error e => .error e
    | .ok stack' =>
      if stack'.length ≠ frame.outerStackSize then
        .error (.validation (stackNotEmptyMessage frame stack'))
      else if frame.type = .try_ ∨ frame.type = .catch_ then
        .ok { ctx with
              controlStack := { frame with type := .catch_, isReachable := true } :: rest,
              stack := stack' }
      else .error (.validation "catch only allowed in try/catch context")

/-- The decoded operator records fed to the validator, one constructor per
dispatch method modelled from `Validate.cpp`.  The uniform
`WAVM_ENUM_NONCONTROL_NONPARAMETRIC_OPERATORS` family (arithmetic,
conversions, SIMD, atomics, …) shares the single `nonparametric` constructor
carrying its name, feature gate, immediate-validation outcome (the immediate
checks read no validator state), and signature from the signature table. -/
inductive Operator where
  | block (type : IndexedBlockType)
  | loop (type : IndexedBlockType)
  | if_ (type : IndexedBlockType)
  | else_
  | end_
  | try_ (type : IndexedBlockType)
  | catch_ (exceptionTypeIndex : Nat)
  | catch_all
  | return_
  | br (targetDepth : Nat)
  | br_if (targetDepth : Nat)
  | br_table (branchTableIndex : Nat) (defaultTargetDepth : Nat)
  | unreachable
  | drop
  | select (type : ValueType)
  | local_get (variableIndex : Nat)
  | local_set (variableIndex : Nat)
  | local_tee (variableIndex : Nat)
  | global_get (variableIndex : Nat)
  | global_set (variableIndex : Nat)
  | table_get (tableIndex : Nat)
  | table_set (tableIndex : Nat)
  | table_grow (tableIndex : Nat)
  | table_fill (tableIndex : Nat)
  | throw_ (exceptionTypeIndex : Nat)
  | rethrow (catchDepth : Nat)
  | call (functionIndex : Nat)
  | call_indirect (tableIndex : Nat) (typeIndex : Nat)
  | nonparametric (nameString : String) (featureGate : FeatureSpec → Bool) (immOk : Bool)
      (paramTypes : List ValueType) (resultTypes : List ValueType)

/-- The `nameString` each `VISIT_OPCODE` expansion passes to
`validateNonEmptyControlStack`. -/
def Operator.nameString : Operator → String
  | .block _ => "block"
  | .loop _ => "loop"
  | .if_ _ => "if"
  | .else_ => "else"
  | .end_ => "end"
  | .try_ _ => "try"
  | .catch_ _ => "catch"
  | .catch_all => "catch_all"
  | .return_ => "return"
  | .br _ => "br"
  | .br_if _ => "br_if"
  | .br_table _ _ => "br_table"
  | .unreachable => "unreachable"
  | .drop => "drop"
  | .select _ => "select"
  | .local_get _ => "local.get"
  | .local_set _ => "local.set"
  | .local_tee _ => "local.tee"
  | .global_get _ => "global.get"
  | .global_set _ => "global.set"
  | .table_get _ => "table.get"
  | .table_set _ => "table.set"
  | .table_grow _ => "table.grow"
  | .table_fill _ => "table.fill"
  | .throw_ _ => "throw"
  | .rethrow _ => "rethrow"
  | .call _ => "call"
  | .call_indirect _ _ => "call_indirect"
  | .nonparametric n _ _ _ _ => n

/-- The per-target loop of `FunctionValidationContext::br_table`: for each
target depth in order, resolve the target frame, fail if its branch-param
arity differs from the default target's, otherwise peek the target's params
against the current operand stack. -/
def brTableCheckTargets (ctx : FVContext) (defaultTargetParams : List ValueType) :
    List Nat → Except VErr Unit
  | [] => .ok ()
  | depth :: rest =>
    match ctx.getBranchTargetByDepth depth with
    | .error e => .error e
    | .ok target =>
      if target.params.length ≠ defaultTargetParams.length then
        .error (.validation "br_table targets must all take the same number of parameters")
      else
        match ctx.controlStack with
        | [] => .error (.assertion "controlStack.size()")
        | frame :: _ =>
          match peekAndValidateTypeTuple frame ctx.stack "br_table argument" target.params with
          | .error e => .error e
          | .ok () => brTableCheckTargets ctx defaultTargetParams rest

/-- The per-opcode dispatch methods of `FunctionValidationContext`, one match
arm per method. -/
def FVContext.step (lim : Limits) (ctx : FVContext) : Operator → Except VErr FVContext
  | .block type =>
    match validateBlockType ctx.module type with
    | .error e => .error e
    | .ok t =>
      match ctx.popTuple "block arguments" t.params with
      | .error e => .error e
      | .ok ctx1 => .ok ((ctx1.pushControlStack .block t.results t.results).pushTuple t.params)
  | .loop type =>
    match validateBlockType ctx.module type with
    | .error e => .error e
    | .ok t =>
      match ctx.popTuple "loop arguments" t.params with
      | .error e => .error e
      | .ok ctx1 => .ok ((ctx1.pushControlStack .loop t.params t.results).pushTuple t.params)
  | .if_ type =>
    match validateBlockType ctx.module type with
    | .error e => .error e
    | .ok t =>
      match ctx.popOperand "if condition" .i32 with
      | .error e => .error e
      | .ok (_, ctx1) =>
        match ctx1.popTuple "if arguments" t.params with
        | .error e => .error e
        | .ok ctx2 =>
          .ok ((ctx2.pushControlStack .ifThen t.results t.results t.params).pushTuple t.params)
  | .else_ =>
    match ctx.controlStack with
    | [] => .error (.assertion "controlStack.size()")
    | frame :: rest =>
      if frame.type ≠ .ifThen then .error (.validation "else only allowed in if context")
      else
        match popAndValidateTypeTuple frame ctx.stack "if result" frame.results with
        | .error e => .error e
        | .ok stack' =>
          if stack'.length ≠ frame.outerStackSize then
            .error (.validation (stackNotEmptyMessage frame stack'))
          else
            .ok { ctx with
                  controlStack := ({ frame with type := .ifElse, isReachable := true }) :: rest,
                  stack := pushOperandTuple stack' frame.elseParams }
  | .end_ =>
    match ctx.controlStack with
    | [] => .error (.assertion "controlStack.size()")
    | frame :: rest =>
      if frame.type = .try_ then .error (.validation "end may not occur in try context")
      else if frame.type = .ifThen ∧ frame.results ≠ frame.elseParams then
        .error (.validation "else-less if must have identity signature")
      else
        match popAndValidateTypeTuple frame ctx.stack "end result" frame.results with
        | .error e => .error e
        | .ok stack' =>
          if stack'.length ≠ frame.outerStackSize then
            .error (.validation (stackNotEmptyMessage frame stack'))
          else
            match rest with
            | [] => .ok { ctx with controlStack := [], stack := stack' }
            | _ :: _ =>
              .ok { ctx with
                    controlStack := rest,
                    stack := pushOperandTuple stack' frame.results }
  | .try_ type =>
    match validateBlockType ctx.module type with
    | .error e => .error e
    | .ok t =>
      if ctx.module.featureSpec.exceptionHandling = false then
        .error (.validation "try requires exceptionHandling feature")
      else
        match ctx.popTuple "try arguments" t.params with
        | .error e => .error e
        | .ok ctx1 => .ok ((ctx1.pushControlStack .try_ t.results t.results).pushTuple t.params)
  | .catch_ exceptionTypeIndex =>
    if ctx.module.featureSpec.exceptionHandling = false then
      .error (.validation "catch requires exceptionHandling feature")
    else if exceptionTypeIndex ≥ ctx.module.exceptionTypes.size then
      .error (.validation
        "invalid index: imm.exceptionTypeIndex must be less than module.exceptionTypes.size()")
    else
      let t := ctx.module.exceptionTypes.getType exceptionTypeIndex
      match ctx.validateCatch with
      | .error e => .error e
      | .ok ctx1 => .ok (ctx1.pushTuple t.params)
  | .catch_all =>
    if ctx.module.featureSpec.exceptionHandling = false then
      .error (.validation "catch_all requires exceptionHandling feature")
    else
      match ctx.validateCatch with
      | .error e => .error e
      | .ok ctx1 => .ok ctx1
  | .return_ =>
    match ctx.popTuple "ret" ctx.functionType.results with
    | .error e => .error e
    | .ok ctx1 => ctx1.enterUnreachable
  | .br targetDepth =>
    match ctx.getBranchTargetByDepth targetDepth with
    | .error e => .error e
    | .ok target =>
      match ctx.popTuple "br argument" target.params with
      | .error e => .error e
      | .ok ctx1 => ctx1.enterUnreachable
  | .br_if targetDepth =>
    match ctx.getBranchTargetByDepth targetDepth with
    | .error e => .error e
    | .ok target =>
      match ctx.popOperand "br_if condition" .i32 with
      | .error e => .error e
      | .ok (_, ctx1) =>
        match ctx1.popTuple "br_if argument" target.params with
        | .error e => .error e
        | .ok ctx2 => .ok (ctx2.pushTuple target.params)
  | .br_table branchTableIndex defaultTargetDepth =>
    match ctx.popOperand "br_table index" .i32 with
    | .error e => .error e
    | .ok (_, ctx1) =>
      match ctx1.getBranchTargetByDepth defaultTargetDepth with
      | .error e => .error e
      | .ok defaultTarget =>
        if branchTableIndex ≥ ctx.functionDef.branchTables.length then
          .error (.assertion "imm.branchTableIndex < functionDef.branchTables.size()")
        else
          match brTableCheckTargets ctx1 defaultTarget.params
              (ctx.functionDef.branchTables.getD branchTableIndex []) with
          | .error e => .error e
          | .ok () =>
            match ctx1.popTuple "br_table argument" defaultTarget.params with
            | .error e => .error e
            | .ok ctx2 => ctx2.enterUnreachable
  | .unreachable => ctx.enterUnreachable
  | .drop =>
    match ctx.popOperand "drop" .any with
    | .error e => .error e
    | .ok (_, ctx1) => .ok ctx1
  | .select type =>
    match ctx.popOperand "select condition" .i32 with
    | .error e => .error e
    | .ok (_, ctx1) =>
      if type = .any then
        match ctx1.popOperand "select false value" .any with
        | .error e => .error e
        | .ok (falseType, ctx2) =>
          match ctx2.popOperand "select true value" .any with
          | .error e => .error e
          | .ok (trueType, ctx3) =>
            if (falseType ≠ .none ∧ isNumericType falseType = false)
                ∨ (trueType ≠ .none ∧ isNumericType trueType = false) then
              .error (.validation "non-typed select operands must be numeric types: ")
            else if falseType = .none then .ok (ctx3.pushOperand trueType)
            else if trueType = .none then .ok (ctx3.pushOperand falseType)
            else if falseType ≠ trueType then
              .error (.validation "non-typed select operands must have the same numeric type: ")
            else .ok (ctx3.pushOperand falseType)
      else
        if ctx.module.featureSpec.referenceTypes = false then
          .error (.validation "typed select instruction (0x1c) requires referenceTypes feature")
        else
          match validateValueType ctx.module.featureSpec type with
          | .error e => .error e
          | .ok () =>
            match ctx1.popOperand "select false value" type with
            | .error e => .error e
            | .ok (_, ctx2) =>
              match ctx2.popOperand "select true value" type with
              | .error e => .error e
              | .ok (_, ctx3) => .ok (ctx3.pushOperand type)
  | .local_get variableIndex =>
    match ctx.validateLocalIndex variableIndex with
    | .error e => .error e
    | .ok t => .ok (ctx.pushOperand t)
  | .local_set variableIndex =>
    match ctx.validateLocalIndex variableIndex with
    | .error e => .error e
    | .ok t =>
      match ctx.popOperand "local.set" t with
      | .error e => .error e
      | .ok (_, ctx1) => .ok ctx1
  | .local_tee variableIndex =>
    match ctx.validateLocalIndex variableIndex with
    | .error e => .error e
    | .ok t =>
      match ctx.popOperand "local.tee" t with
      | .error e => .error e
      | .ok (operandType, ctx1) => .ok (ctx1.pushOperand operandType)
  | .global_get variableIndex =>
    match validateGlobalIndex ctx.module variableIndex false false false "global.get" with
    | .error e => .error e
    | .ok t => .ok (ctx.pushOperand t)
  | .global_set variableIndex =>
    match validateGlobalIndex ctx.module variableIndex true false false "global.set" with
    | .error e => .error e
    | .ok t =>
      match ctx.popOperand "global.set" t with
      | .error e => .error e
      | .ok (_, ctx1) => .ok ctx1
  | .table_get tableIndex =>
    if tableIndex ≥ ctx.module.tables.size then
      .error (.validation "invalid index: imm.tableIndex must be less than module.tables.size()")
    else
      let tableType := ctx.module.tables.getType tableIndex
      match ctx.popOperand "table.get" .i32 with
      | .error e => .error e
      | .ok (_, ctx1) => .ok (ctx1.pushOperand (asValueType tableType.elementType))
  | .table_set tableIndex =>
    if tableIndex ≥ ctx.module.tables.size then
      .error (.validation "invalid index: imm.tableIndex must be less than module.tables.size()")
    else
      let tableType := ctx.module.tables.getType tableIndex
      match ctx.popOperand "table.get" (asValueType tableType.elementType) with
      | .error e => .error e
      | .ok (_, ctx1) =>
        match ctx1.popOperand "table.get" .i32 with
        | .error e => .error e
        | .ok (_, ctx2) => .ok ctx2
  | .table_grow tableIndex =>
    if tableIndex ≥ ctx.module.tables.size then
      .error (.validation "invalid index: imm.tableIndex must be less than module.tables.size()")
    else
      let tableType := ctx.module.tables.getType tableIndex
      match ctx.popOperand "table.grow" .i32 with
      | .error e => .error e
      | .ok (_, ctx1) =>
        match ctx1.popOperand "table.grow" (asValueType tableType.elementType) with
        | .error e => .error e
        | .ok (_, ctx2) => .ok (ctx2.pushOperand .i32)
  | .table_fill tableIndex =>
    if tableIndex ≥ ctx.module.tables.size then
      .error (.validation "invalid index: imm.tableIndex must be less than module.tables.size()")
    else
      let tableType := ctx.module.tables.getType tableIndex
      match ctx.popOperand "table.fill" .i32 with
      | .error e => .error e
      | .ok (_, ctx1) =>
        match ctx1.popOperand "table.fill" (asValueType tableType.elementType) with
        | .error e => .error e
        | .ok (_, ctx2) =>
          match ctx2.popOperand "table.fill" .i32 with
          | .error e => .error e
          | .ok (_, ctx3) => .ok ctx3
  | .throw_ exceptionTypeIndex =>
    if ctx.module.featureSpec.exceptionHandling = false then
      .error (.validation "throw requires exceptionHandling feature")
    else if exceptionTypeIndex ≥ ctx.module.exceptionTypes.size then
      .error (.validation
        "invalid index: imm.exceptionTypeIndex must be less than module.exceptionTypes.size()")
    else
      let t := ctx.module.exceptionTypes.getType exceptionTypeIndex
      match ctx.popTuple "exception arguments" t.params with
      | .error e => .error e
      | .ok ctx1 => ctx1.enterUnreachable
  | .rethrow catchDepth =>
    if ctx.module.featureSpec.exceptionHandling = false then
      .error (.validation "rethrow requires exceptionHandling feature")
    else
      match ctx.getBranchTargetByDepth catchDepth with
      | .error e => .error e
      | .ok target =>
        if target.type ≠ .catch_ then .error (.validation "rethrow must target a catch: ")
        else ctx.enterUnreachable
  | .call functionIndex =>
    match validateFunctionIndex ctx.module functionIndex with
    | .error e => .error e
    | .ok calleeType =>
      match ctx.popTuple "call arguments" calleeType.params with
      | .error e => .error e
      | .ok ctx1 => .ok (ctx1.pushTuple calleeType.results)
  | .call_indirect tableIndex typeIndex =>
    if tableIndex ≥ ctx.module.tables.size then
      .error (.validation "invalid index: imm.tableIndex must be less than module.tables.size()")
    else if (ctx.module.tables.getType tableIndex).elementType ≠ ReferenceType.funcref then
      .error (.validation "call_indirect requires a table element type of funcref: ")
    else
      match validateFunctionType ctx.module lim.maxReturnValues typeIndex with
      | .error e => .error e
      | .ok calleeType =>
        match ctx.popOperand "call_indirect function index" .i32 with
        | .error e => .error e
        | .ok (_, ctx1) =>
          match ctx1.popTuple "call_indirect arguments" calleeType.params with
          | .error e => .error e
          | .ok ctx2 => .ok (ctx2.pushTuple calleeType.results)
  | .nonparametric nameString featureGate immOk paramTypes resultTypes =>
    if featureGate ctx.module.featureSpec = false then
      .error (.validation (nameString ++ " requires feature"))
    else if immOk = false then
      .error (.validation "invalid operator immediates")
    else
      match ctx.popTuple nameString paramTypes with
      | .error e => .error e
      | .ok ctx1 => .ok (ctx1.pushTuple resultTypes)

/-- `CodeValidationStream`'s `VISIT_OPCODE` wrapper: every opcode method
first runs `validateNonEmptyControlStack(nameString)` and then dispatches to
the `FunctionValidationContext` method. -/
def streamStep (lim : Limits) (ctx : FVContext) (op : Operator) : Except VErr FVContext :=
  if ctx.controlStack.length = 0 then
    .error (.validation ("Expected non-empty control stack in " ++ op.nameString))
  else FVContext.step lim ctx op

/-- The `FunctionValidationContext` constructor: validate the non-parameter
local types, build `locals`, and push the outermost `function` frame (with
`outerStackSize = 0` and the function's results as both params and
results). -/
def initContext (module : Module) (functionDef : FunctionDef) : Except VErr FVContext :=
  match validateTypeTuple module.featureSpec functionDef.nonParameterLocalTypes with
  | .error e => .error e
  | .ok () =>
    let functionType := module.types.getD functionDef.type default
    .ok { module := module, functionDef := functionDef, functionType := functionType,
          locals := functionType.params ++ functionDef.nonParameterLocalTypes,
          controlStack := [⟨.function, 0, functionType.results, functionType.results, true, []⟩],
          stack := [] }

/-- `CodeValidationStream::finish()`. -/
def finish (ctx : FVContext) : Except VErr Unit :=
  if ctx.controlStack.length ≠ 0 then
    .error (.validation "end of code reached before end of function")
  else .ok ()

/-- Feed a sequence of decoded operators through the validation stream. -/
def runOps (lim : Limits) : FVContext → List Operator → Except VErr FVContext
  | ctx, [] => .ok ctx
  | ctx, op :: rest =>
    match streamStep lim ctx op with
    | .error e => .error e
    | .ok ctx' => runOps lim ctx' rest

/-- The per-export `switch` body of `IR::validateExports`: bounds-check the
index per kind (exported globals via `validateGlobalIndex` with
`mustBeImmutable = !importExportMutableGlobals`), rejecting the `invalid`
kind. -/
def validateExport (module : Module) (e : Export) : Except VErr Unit :=
  match e.kind with
  | .function =>
    if e.index ≥ module.functions.size then
      .error (.validation
        "invalid index: exportIt.index must be less than module.functions.size()")
    else .ok ()
  | .table =>
    if e.index ≥ module.tables.size then
      .error (.validation "invalid index: exportIt.index must be less than module.tables.size()")
    else .ok ()
  | .memory =>
    if e.index ≥ module.memories.size then
      .error (.validation
        "invalid index: exportIt.index must be less than module.memories.size()")
    else .ok ()
  | .global =>
    match validateGlobalIndex module e.index false
        (!module.featureSpec.importExportMutableGlobals) false "exported global index" with
    | .error err => .error err
    | .ok _ => .ok ()
  | .exceptionType =>
    if e.index ≥ module.exceptionTypes.size then
      .error (.validation
        "invalid index: exportIt.index must be less than module.exceptionTypes.size()")
    else .ok ()
  | .invalid => .error (.validation "unknown export kind")

/-- The loop of `IR::validateExports`, carrying the accumulated
`exportNameSet` (a `HashSet` in the source, a list here): after the per-kind
check, reject a name already in the set, then add it. -/
def validateExportsLoop (module : Module) (exportNameSet : List String) :
    List Export → Except VErr Unit
  | [] => .ok ()
  | e :: rest =>
    match validateExport module e with
    | .error err => .error err
    | .ok () =>
      if e.name ∈ exportNameSet then .error (.validation "duplicate export: ")
      else validateExportsLoop module (e.name :: exportNameSet) rest

/-- `IR::validateExports`. -/
def validateExports (module : Module) : Except VErr Unit :=
  validateExportsLoop module [] module.exports

/-- The per-kind sum the `wavmAssert` at the top of `IR::validateImports`
compares `module.imports.size()` against. -/
def importKindSum (module : Module) : Nat :=
  module.functions.imports.length + module.tables.imports.length
    + module.memories.imports.length + module.globals.imports.length
    + module.exceptionTypes.imports.length

/-- Modelled from the spec: the `Module` representation invariant "the
total import count equals the sum of per-kind imports" (§4.2 Imports); the
flat `module.imports` list is maintained by `Module.h`/the decoder, which
are not among the provided sources. -/
def importCountsConsistent (module : Module) : Prop :=
  module.imports.length = importKindSum module

/-- Fold a per-entry validator over a list, stopping at the first failure. -/
def validateAll {α : Type} (f : α → Except VErr Unit) : List α → Except VErr Unit
  | [] => .ok ()
  | x :: rest =>
    match f x with
    | .error e => .error e
    | .ok () => validateAll f rest

/-- The per-global-import body in `IR::validateImports`: validate the global
type, then reject mutable imported globals unless
`importExportMutableGlobals` is enabled. -/
def validateGlobalImport (featureSpec : FeatureSpec) (type : GlobalType) : Except VErr Unit :=
  match validateGlobalType featureSpec type with
  | .error e => .error e
  | .ok () =>
    if featureSpec.importExportMutableGlobals = false ∧ type.isMutable = true then
      .error (.validation "mutable globals cannot be imported: ")
    else .ok ()

/-- `IR::validateImports`: the leading `wavmAssert` on the import counts
(an abort, not a `ValidationException`, hence `.assertion`), then the
per-kind import validation and the table/memory count caps. -/
def validateImports (lim : Limits) (module : Module) : Except VErr Unit :=
  if module.imports.length ≠ importKindSum module then
    .error (.assertion "module.imports.size() == sum of per-kind imports")
  else
    match validateAll
        (fun typeIndex =>
          match validateFunctionType module lim.maxReturnValues typeIndex with
          | .error e => .error e
          | .ok _ => .ok ())
        module.functions.imports with
    | .error e => .error e
    | .ok () =>
      match validateAll (validateTableType module.featureSpec lim.maxTableElems)
          module.tables.imports with
      | .error e => .error e
      | .ok () =>
        match validateAll (validateMemoryType module.featureSpec lim.maxMemoryPages)
            module.memories.imports with
        | .error e => .error e
        | .ok () =>
          match validateAll (validateGlobalImport module.featureSpec)
              module.globals.imports with
          | .error e => .error e
          | .ok () =>
            match validateAll
                (fun (e : ExceptionType) => validateTypeTuple module.featureSpec e.params)
                module.exceptionTypes.imports with
            | .error e => .error e
            | .ok () =>
              if module.featureSpec.referenceTypes = false ∧ module.tables.size > 1 then
                .error (.validation "too many tables: ")
              else if module.memories.size > 1 then
                .error (.validation "too many memories: ")
              else .ok ()

/-! Shared concrete objects used by witnesses and counterexamples. -/

def limW : Limits := ⟨65536, 65536, 1000⟩

/-- A FeatureSpec with only `mvp` enabled. -/
def fsMVP : FeatureSpec := ⟨true, false, false, false, false, false, false, false, false⟩

/-- A minimal module: one `() → ()` type, one defined function of that type. -/
def mW : Module := ⟨fsMVP, [⟨[], []⟩], ⟨[], [0]⟩, ⟨[], []⟩, ⟨[], []⟩, ⟨[], []⟩, ⟨[], []⟩, [], []⟩

/-! General-purpose lemmas about the operand-stack primitives. -/

theorem isSubtype_none_left (expectedType : ValueType) :
    isSubtype ValueType.none expectedType = true := by
  cases expectedType <;> rfl

/-- Peeking in an unreachable frame with the stack at (or not above) the
requested depth over the floor yields the bottom type `none`. -/
theorem peek_unreachable_bottom (frame : ControlContext) (stack : List ValueType)
    (context : String) (operandDepth : Nat) (expectedType : ValueType)
    (hunreach : frame.isReachable = false)
    (hshallow : stack.length ≤ frame.outerStackSize + operandDepth) :
    peekAndValidateOperand frame stack context operandDepth expectedType
      = .ok ValueType.none := by
  unfold peekAndValidateOperand
  rw [if_neg (by omega), if_pos hunreach]
  simp [isSubtype_none_left]

/-- Popping with the stack exactly at the frame's floor in an unreachable
frame succeeds with the bottom type and leaves the stack unchanged. -/
theorem pop_at_floor_unreachable (frame : ControlContext) (stack : List ValueType)
    (context : String) (expectedType : ValueType)
    (hunreach : frame.isReachable = false)
    (hfloor : stack.length = frame.outerStackSize) :
    popAndValidateOperand frame stack context expectedType
      = .ok (ValueType.none, stack) := by
  unfold popAndValidateOperand
  rw [peek_unreachable_bottom frame stack context 0 expectedType hunreach (by omega)]
  dsimp only
  rw [if_neg (by omega)]

/-- C9: size-constraint validation fails iff `size.min > effectiveMax` or
`effectiveMax > maxMax`, where `effectiveMax` is `maxMax` when `size.max` is
the `UINT64_MAX` sentinel and `size.max` otherwise; consequently a table
type with `min = max = n ≤ maxTableElems` validates and one with
`min = max + 1` fails with the disjoint-bounds error. -/
theorem c9_size_constraint_validation (size : SizeConstraints) (maxMax : Nat)
    (featureSpec : FeatureSpec) (maxTableElems n : Nat)
    (hmvp : featureSpec.mvp = true) (hle : n ≤ maxTableElems) (hnmax : n ≠ U64_MAX) :
    ((∃ e, validateSizeConstraints size maxMax = .error e)
      ↔ (size.min > effectiveMax size maxMax ∨ effectiveMax size maxMax > maxMax))
    ∧ validateTableType featureSpec maxTableElems ⟨.funcref, false, ⟨n, n⟩⟩ = .ok ()
    ∧ validateTableType featureSpec maxTableElems ⟨.funcref, false, ⟨n + 1, n⟩⟩
        = .error (.validation "disjoint size bounds: ") := by
  have heff : ∀ m, effectiveMax ⟨m, n⟩ maxTableElems = n := by
    intro m; unfold effectiveMax; simp [hnmax]
  refine ⟨?_, ?_, ?_⟩
  · unfold validateSizeConstraints
    by_cases h1 : size.min > effectiveMax size maxMax
    · rw [if_pos h1]
      simp [h1]
    · rw [if_neg h1]
      by_cases h2 : effectiveMax size maxMax > maxMax
      · rw [if_pos h2]
        simp [h2]
      · rw [if_neg h2]
        simp [h1, h2]
  · have hok : validateSizeConstraints ⟨n, n⟩ maxTableElems = .ok () := by
      unfold validateSizeConstraints
      rw [heff n]
      rw [if_neg (by dsimp only; omega), if_neg (by omega)]
    unfold validateTableType
    simp only [validateReferenceType, hmvp, if_pos, hok]
    rfl
  · have herr : validateSizeConstraints ⟨n + 1, n⟩ maxTableElems
        = .error (.validation "disjoint size bounds: ") := by
      unfold validateSizeConstraints
      rw [heff (n + 1)]
      rw [if_pos (by dsimp only; omega)]
    unfold validateTableType
    simp only [validateReferenceType, hmvp, if_pos, herr]

theorem c9_size_constraint_validation_witness :
    validateTableType fsMVP 10 ⟨.funcref, false, ⟨3, 3⟩⟩ = .ok ()
    ∧ validateTableType fsMVP 10 ⟨.funcref, false, ⟨4, 3⟩⟩
        = .error (.validation "disjoint size bounds: ") :=
  ⟨(c9_size_constraint_validation ⟨1, 2⟩ 5 fsMVP 10 3 rfl (by decide) (by decide)).2.1,
   (c9_size_constraint_validation ⟨1, 2⟩ 5 fsMVP 10 3 rfl (by decide) (by decide)).2.2⟩

/-- C10: whenever the control stack is empty, every stream opcode method
fails with the expected-non-empty-control-stack error before dispatching to
the `FunctionValidationContext` method. -/
theorem c10_empty_control_stack (lim : Limits) (ctx : FVContext) (op : Operator)
    (h : ctx.controlStack = []) :
    streamStep lim ctx op
      = .error (.validation ("Expected non-empty control stack in " ++ op.nameString)) := by
  unfold streamStep
  rw [h]
  rfl

def emptyCtxW : FVContext := ⟨mW, ⟨0, [], []⟩, ⟨[], []⟩, [], [], []⟩

theorem c10_empty_control_stack_witness :
    streamStep limW emptyCtxW .drop
      = .error (.validation "Expected non-empty control stack in drop") :=
  c10_empty_control_stack limW emptyCtxW .drop rfl

/-- C6: `validateInitializer` on `global_get i` succeeds iff `i` indexes an
imported global, the referenced global is immutable, and its value type
satisfies the expected type under `isSubtype`; an out-of-range `i` yields
the invalid-index error. -/
theorem c6_initializer_global_get (module : Module) (i : Nat) (expectedType : ValueType)
    (context : String) :
    (validateInitializer module (.global_get i) expectedType context = .ok ()
      ↔ (i < module.globals.imports.length
          ∧ (module.globals.getType i).isMutable = false
          ∧ isSubtype (module.globals.getType i).valueType expectedType = true))
    ∧ (module.globals.size ≤ i →
        validateInitializer module (.global_get i) expectedType context
          = .error (.validation
              "invalid index: globalIndex must be less than module.globals.size()")) := by
  have hsize : module.globals.imports.length ≤ module.globals.size := by
    unfold IndexSpace.size; omega
  constructor
  · unfold validateInitializer validateGlobalIndex
    dsimp only
    by_cases h1 : i ≥ module.globals.size
    · rw [if_pos h1]
      dsimp only
      constructor
      · intro h; exact absurd h (by simp)
      · rintro ⟨h2, -, -⟩; omega
    · rw [if_neg h1, if_neg (by rintro ⟨h, -⟩; cases h)]
      by_cases h2 : i ≥ module.globals.imports.length
      · rw [if_pos ⟨rfl, h2⟩]
        dsimp only
        constructor
        · intro h; exact absurd h (by simp)
        · rintro ⟨h3, -, -⟩; omega
      · rw [if_neg (by rintro ⟨-, hc⟩; exact h2 hc)]
        by_cases h3 : (module.globals.getType i).isMutable = true
        · rw [if_pos ⟨rfl, h3⟩]
          dsimp only
          constructor
          · intro h; exact absurd h (by simp)
          · rintro ⟨-, h4, -⟩; rw [h3] at h4; cases h4
        · rw [if_neg (by rintro ⟨-, hc⟩; exact h3 hc)]
          dsimp only
          unfold validateType
          by_cases h4 : isSubtype (module.globals.getType i).valueType expectedType = true
          · rw [if_pos h4]
            constructor
            · intro _; exact ⟨by omega, by simpa using h3, h4⟩
            · intro _; rfl
          · rw [if_neg h4]
            constructor
            · intro h; exact absurd h (by simp)
            · rintro ⟨-, -, hc⟩; exact absurd hc h4
  · intro h
    unfold validateInitializer validateGlobalIndex
    dsimp only
    rw [if_pos h]

def mGlobW : Module :=
  ⟨fsMVP, [], ⟨[], []⟩, ⟨[], []⟩, ⟨[], []⟩, ⟨[⟨false, .i32⟩], []⟩, ⟨[], []⟩, [], []⟩

theorem c6_initializer_global_get_witness :
    validateInitializer mGlobW (.global_get 0) ValueType.i32 "ctx" = .ok () :=
  (c6_initializer_global_get mGlobW 0 ValueType.i32 "ctx").1.mpr
    ⟨by decide, by decide, by decide⟩

/-! Lemmas for C8: the per-kind import validators only ever raise
`ValidationException`s, never assertion failures. -/

theorem validateValueType_noAssert (featureSpec : FeatureSpec) (t : ValueType) :
    ∀ s, validateValueType featureSpec t ≠ .error (.assertion s) := by
  intro s h
  unfold validateValueType at h
  split at h
  all_goals (cases hb : featureSpec.mvp <;> cases hb2 : featureSpec.simd <;>
    cases hb3 : featureSpec.referenceTypes <;> simp [hb, hb2, hb3] at h)

theorem validateSizeConstraints_noAssert (size : SizeConstraints) (maxMax : Nat) :
    ∀ s, validateSizeConstraints size maxMax ≠ .error (.assertion s) := by
  intro s h
  unfold validateSizeConstraints at h
  repeat' split at h
  all_goals simp at h

theorem validateReferenceType_noAssert (featureSpec : FeatureSpec) (t : ReferenceType) :
    ∀ s, validateReferenceType featureSpec t ≠ .error (.assertion s) := by
  intro s h
  unfold validateReferenceType at h
  split at h
  all_goals (cases hb : featureSpec.mvp <;> cases hb3 : featureSpec.referenceTypes <;>
    simp [hb, hb3] at h)

theorem validateTableType_noAssert (featureSpec : FeatureSpec) (maxTableElems : Nat)
    (t : TableType) : ∀ s, validateTableType featureSpec maxTableElems t
      ≠ .error (.assertion s) := by
  intro s h
  unfold validateTableType at h
  cases h1 : validateReferenceType featureSpec t.elementType with
  | error e =>
    rw [h1] at h
    injection h with h2
    exact validateReferenceType_noAssert featureSpec t.elementType s (by rw [h1, h2])
  | ok u =>
    cases u
    rw [h1] at h
    dsimp only at h
    cases h2 : validateSizeConstraints t.size maxTableElems with
    | error e =>
      rw [h2] at h
      injection h with h3
      exact validateSizeConstraints_noAssert t.size maxTableElems s (by rw [h2, h3])
    | ok u =>
      cases u
      rw [h2] at h
      dsimp only at h
      repeat' split at h
      all_goals simp at h

theorem validateMemoryType_noAssert (featureSpec : FeatureSpec) (maxMemoryPages : Nat)
    (t : MemoryType) : ∀ s, validateMemoryType featureSpec maxMemoryPages t
      ≠ .error (.assertion s) := by
  intro s h
  unfold validateMemoryType at h
  cases h1 : validateSizeConstraints t.size maxMemoryPages with
  | error e =>
    rw [h1] at h
    injection h with h2
    exact validateSizeConstraints_noAssert t.size maxMemoryPages s (by rw [h1, h2])
  | ok u =>
    cases u
    rw [h1] at h
    dsimp only at h
    repeat' split at h
    all_goals simp at h

theorem validateTypeTuple_noAssert (featureSpec : FeatureSpec) :
    ∀ (l : List ValueType) (s : String),
      validateTypeTuple featureSpec l ≠ .error (.assertion s) := by
  intro l
  induction l with
  | nil => intro s h; simp [validateTypeTuple] at h
  | cons t rest ih =>
    intro s h
    unfold validateTypeTuple at h
    cases h1 : validateValueType featureSpec t with
    | error e =>
      rw [h1] at h
      injection h with h2
      exact validateValueType_noAssert featureSpec t s (by rw [h1, h2])
    | ok u => cases u; rw [h1] at h; exact ih s h

theorem validateFunctionType_noAssert (module : Module) (maxReturnValues typeIndex : Nat) :
    ∀ s, validateFunctionType module maxReturnValues typeIndex
      ≠ .error (.assertion s) := by
  intro s h
  unfold validateFunctionType at h
  split at h
  · simp at h
  · dsimp only at h
    split at h <;> simp at h

theorem validateGlobalImport_noAssert (featureSpec : FeatureSpec) (t : GlobalType) :
    ∀ s, validateGlobalImport featureSpec t ≠ .error (.assertion s) := by
  intro s h
  unfold validateGlobalImport at h
  cases h1 : validateGlobalType featureSpec t with
  | error e =>
    rw [h1] at h
    injection h with h2
    exact validateValueType_noAssert featureSpec t.valueType s (by
      rw [show validateValueType featureSpec t.valueType = .error e from h1, h2])
  | ok u =>
    cases u
    rw [h1] at h
    dsimp only at h
    split at h <;> simp at h

theorem validateAll_noAssert {α : Type} (f : α → Except VErr Unit)
    (hf : ∀ x s, f x ≠ .error (.assertion s)) :
    ∀ (l : List α) (s : String), validateAll f l ≠ .error (.assertion s) := by
  intro l
  induction l with
  | nil => intro s h; simp [validateAll] at h
  | cons x rest ih =>
    intro s h
    unfold validateAll at h
    cases h1 : f x with
    | error e =>
      rw [h1] at h
      injection h with h2
      exact hf x s (by rw [h1, h2])
    | ok u => cases u; rw [h1] at h; exact ih s h

/-- C8: `validateImports` checks the total import count against the sum of
per-kind import counts; the check is a `wavmAssert`, so when the `Module`
invariant holds (consistent counts) `validateImports` never fails through
that branch — all its possible errors are `ValidationException`s from the
per-kind validation — while an inconsistent module trips exactly the
assertion, not a `ValidationException`. -/
theorem c8_import_count_check (lim : Limits) (module : Module) :
    (importCountsConsistent module →
      ∀ s, validateImports lim module ≠ .error (.assertion s))
    ∧ (¬ importCountsConsistent module →
      validateImports lim module
        = .error (.assertion "module.imports.size() == sum of per-kind imports")) := by
  constructor
  · intro hc s h
    unfold validateImports at h
    rw [if_neg (show ¬(module.imports.length ≠ importKindSum module) from
      fun hn => hn hc)] at h
    cases h1 : validateAll
        (fun typeIndex =>
          match validateFunctionType module lim.maxReturnValues typeIndex with
          | .error e => .error e
          | .ok _ => .ok ())
        module.functions.imports with
    | error e =>
      rw [h1] at h
      injection h with h2
      refine validateAll_noAssert _ ?_ module.functions.imports s (by rw [h1, h2])
      intro x s' hx
      cases h3 : validateFunctionType module lim.maxReturnValues x with
      | error e' =>
        rw [h3] at hx
        injection hx with h4
        exact validateFunctionType_noAssert module lim.maxReturnValues x s' (by rw [h3, h4])
      | ok ft => rw [h3] at hx; simp at hx
    | ok u =>
      cases u
      rw [h1] at h
      dsimp only at h
      cases h2 : validateAll (validateTableType module.featureSpec lim.maxTableElems)
          module.tables.imports with
      | error e =>
        rw [h2] at h
        injection h with h3
        exact validateAll_noAssert _
          (fun x s' => validateTableType_noAssert module.featureSpec lim.maxTableElems x s')
          module.tables.imports s (by rw [h2, h3])
      | ok u =>
        cases u
        rw [h2] at h
        dsimp only at h
        cases h3 : validateAll (validateMemoryType module.featureSpec lim.maxMemoryPages)
            module.memories.imports with
        | error e =>
          rw [h3] at h
          injection h with h4
          exact validateAll_noAssert _
            (fun x s' => validateMemoryType_noAssert module.featureSpec lim.maxMemoryPages x s')
            module.memories.imports s (by rw [h3, h4])
        | ok u =>
          cases u
          rw [h3] at h
          dsimp only at h
          cases h4 : validateAll (validateGlobalImport module.featureSpec)
              module.globals.imports with
          | error e =>
            rw [h4] at h
            injection h with h5
            exact validateAll_noAssert _
              (fun x s' => validateGlobalImport_noAssert module.featureSpec x s')
              module.globals.imports s (by rw [h4, h5])
          | ok u =>
            cases u
            rw [h4] at h
            dsimp only at h
            cases h5 : validateAll
                (fun (e : ExceptionType) => validateTypeTuple module.featureSpec e.params)
                module.exceptionTypes.imports with
            | error e =>
              rw [h5] at h
              injection h with h6
              exact validateAll_noAssert _
                (fun x s' => validateTypeTuple_noAssert module.featureSpec x.params s')
                module.exceptionTypes.imports s (by rw [h5, h6])
            | ok u =>
              cases u
              rw [h5] at h
              dsimp only at h
              repeat' split at h
              all_goals simp at h
  · intro hc
    unfold validateImports
    rw [if_pos (show module.imports.length ≠ importKindSum module from fun he => hc he)]

def mImportsW : Module :=
  ⟨fsMVP, [], ⟨[], []⟩, ⟨[], []⟩, ⟨[], []⟩, ⟨[], []⟩, ⟨[], []⟩, [], []⟩

theorem c8_import_count_check_witness :
    validateImports limW mImportsW ≠ .error (.assertion "x") :=
  (c8_import_count_check limW mImportsW).1 rfl "x"

/-! Lemmas for C7: characterizing the `validateExports` loop. -/

theorem validateExportsLoop_ok_iff (module : Module) :
    ∀ (l : List Export) (ns : List String),
      validateExportsLoop module ns l = .ok ()
        ↔ ((∀ e ∈ l, validateExport module e = .ok ())
            ∧ (l.map Export.name).Nodup
            ∧ ∀ n ∈ l.map Export.name, n ∉ ns) := by
  intro l
  induction l with
  | nil => intro ns; simp [validateExportsLoop]
  | cons e rest ih =>
    intro ns
    unfold validateExportsLoop
    cases hve : validateExport module e with
    | error err =>
      dsimp only
      constructor
      · intro h; exact absurd h (by simp)
      · rintro ⟨hall, -, -⟩
        have h := hall e (by simp)
        rw [hve] at h
        exact absurd h (by simp)
    | ok u =>
      cases u
      dsimp only
      by_cases hmem : e.name ∈ ns
      · rw [if_pos hmem]
        constructor
        · intro h; exact absurd h (by simp)
        · rintro ⟨-, -, hns⟩
          exact absurd hmem (hns e.name (by simp))
      · rw [if_neg hmem]
        rw [ih (e.name :: ns)]
        simp only [List.map_cons, List.nodup_cons, List.forall_mem_cons]
        constructor
        · rintro ⟨h1, h2, h3⟩
          exact ⟨⟨hve, h1⟩,
            ⟨fun hm => (h3 e.name hm) (List.mem_cons_self _ _), h2⟩,
            ⟨hmem, fun n hn hcon => (h3 n hn) (List.mem_cons_of_mem _ hcon)⟩⟩
        · rintro ⟨⟨-, h1⟩, ⟨hne, h2⟩, ⟨-, h3⟩⟩
          refine ⟨h1, h2, ?_⟩
          intro n hn hcon
          rcases List.mem_cons.mp hcon with heq | hcon
          · exact hne (heq ▸ hn)
          · exact h3 n hn hcon

theorem validateExportsLoop_cons_ok (module : Module) (ns : List String) (e : Export)
    (rest : List Export) (hve : validateExport module e = .ok ())
    (hmem : e.name ∉ ns) :
    validateExportsLoop module ns (e :: rest)
      = validateExportsLoop module (e.name :: ns) rest := by
  conv_lhs => rw [validateExportsLoop]
  rw [hve]
  dsimp only
  rw [if_neg hmem]

theorem validateExportsLoop_append (module : Module) :
    ∀ (pre rest : List Export) (ns : List String),
      (∀ e ∈ pre, validateExport module e = .ok ()) →
      (∀ e ∈ pre, e.name ∉ ns) →
      (pre.map Export.name).Nodup →
      validateExportsLoop module ns (pre ++ rest)
        = validateExportsLoop module ((pre.map Export.name).reverse ++ ns) rest := by
  intro pre
  induction pre with
  | nil => intro rest ns _ _ _; simp
  | cons e pre' ih =>
    intro rest ns hok hns hnd
    have hve := hok e (by simp)
    have hnd' : (e.name ∉ pre'.map Export.name) ∧ (pre'.map Export.name).Nodup := by
      simpa [List.nodup_cons] using hnd
    rw [List.cons_append]
    rw [validateExportsLoop_cons_ok module ns e (pre' ++ rest) hve (hns e (by simp))]
    rw [ih rest (e.name :: ns) (fun x hx => hok x (by simp [hx]))
        (fun x hx => by
          intro hc
          rcases List.mem_cons.mp hc with h | h
          · exact hnd'.1 (h ▸ List.mem_map_of_mem Export.name hx)
          · exact hns x (by simp [hx]) h)
        hnd'.2]
    congr 1
    simp

/-- C7: `validateExports` accepts exactly the modules whose exports all pass
their per-kind check (in-bounds index, valid kind, permitted mutability) and
have pairwise-distinct names; it walks the exports in order and fails at the
first offending export, with that export's per-kind error taking precedence
over its duplicate-name error. -/
theorem c7_exports_in_order (module : Module) :
    (validateExports module = .ok ()
      ↔ ((∀ e ∈ module.exports, validateExport module e = .ok ())
          ∧ (module.exports.map Export.name).Nodup))
    ∧ (∀ pre e post, module.exports = pre ++ e :: post →
        (∀ x ∈ pre, validateExport module x = .ok ()) →
        (pre.map Export.name).Nodup →
        ((∀ err, validateExport module e = .error err →
            validateExports module = .error err)
         ∧ (validateExport module e = .ok () → e.name ∈ pre.map Export.name →
            validateExports module = .error (.validation "duplicate export: ")))) := by
  constructor
  · unfold validateExports
    rw [validateExportsLoop_ok_iff]
    simp
  · intro pre e post hsplit hok hnd
    have happ := validateExportsLoop_append module pre (e :: post) [] hok (by simp) hnd
    constructor
    · intro err herr
      unfold validateExports
      rw [hsplit, happ]
      unfold validateExportsLoop
      rw [herr]
    · intro hoke hmem
      unfold validateExports
      rw [hsplit, happ]
      unfold validateExportsLoop
      rw [hoke]
      dsimp only
      rw [if_pos (by simp [hmem])]

def mExpW : Module :=
  ⟨fsMVP, [⟨[], []⟩], ⟨[], [0]⟩, ⟨[], []⟩, ⟨[], []⟩, ⟨[], []⟩, ⟨[], []⟩,
   [⟨"a", .function, 0⟩, ⟨"a", .function, 0⟩], []⟩

theorem c7_exports_in_order_witness :
    validateExports mExpW = .error (.validation "duplicate export: ") :=
  ((c7_exports_in_order mExpW).2 [⟨"a", .function, 0⟩] ⟨"a", .function, 0⟩ [] rfl
      (fun x hx => by rw [List.mem_singleton] at hx; subst hx; rfl)
      (by simp)).2 rfl (by simp)

/-- C4: the `end` operator fails on a `try` frame; on an `ifThen` frame whose
results differ from its elseParams it fails with the identity-signature
error; otherwise it pops the frame's results, requires the operand stack to
be back at the frame's `outerStackSize`, pops the frame, and pushes the
results onto the outer operand stack iff a frame remains. -/
theorem c4_end_operator (lim : Limits) (ctx : FVContext) (frame : ControlContext)
    (rest : List ControlContext) (hcs : ctx.controlStack = frame :: rest) :
    (frame.type = .try_ →
      FVContext.step lim ctx .end_
        = .error (.validation "end may not occur in try context"))
    ∧ (frame.type = .ifThen → frame.results ≠ frame.elseParams →
      FVContext.step lim ctx .end_
        = .error (.validation "else-less if must have identity signature"))
    ∧ (frame.type ≠ .try_ → (frame.type = .ifThen → frame.results = frame.elseParams) →
      (∀ e, popAndValidateTypeTuple frame ctx.stack "end result" frame.results = .error e →
        FVContext.step lim ctx .end_ = .error e)
      ∧ (∀ stack', popAndValidateTypeTuple frame ctx.stack "end result" frame.results
            = .ok stack' →
        (stack'.length ≠ frame.outerStackSize →
          FVContext.step lim ctx .end_
            = .error (.validation (stackNotEmptyMessage frame stack')))
        ∧ (stack'.length = frame.outerStackSize →
          FVContext.step lim ctx .end_
            = .ok { ctx with
                    controlStack := rest,
                    stack := if rest.isEmpty then stack'
                             else pushOperandTuple stack' frame.results }))) := by
  refine ⟨?_, ?_, ?_⟩
  · intro ht
    simp only [FVContext.step, hcs]
    rw [if_pos ht]
  · intro hif hne
    simp only [FVContext.step, hcs]
    rw [if_neg (fun hc => absurd (hif.symm.trans hc) (by decide)), if_pos ⟨hif, hne⟩]
  · intro hnt hid
    have hni : ¬(frame.type = .ifThen ∧ frame.results ≠ frame.elseParams) := by
      rintro ⟨h1, h2⟩; exact h2 (hid h1)
    constructor
    · intro e he
      simp only [FVContext.step, hcs]
      rw [if_neg hnt, if_neg hni, he]
    · intro stack' hs
      constructor
      · intro hlen
        simp only [FVContext.step, hcs]
        rw [if_neg hnt, if_neg hni, hs]
        dsimp only
        rw [if_pos hlen]
      · intro hlen
        simp only [FVContext.step, hcs]
        rw [if_neg hnt, if_neg hni, hs]
        dsimp only
        rw [if_neg (by omega)]
        cases rest with
        | nil => simp
        | cons g r => simp

def c4CtxW : FVContext :=
  ⟨mW, ⟨0, [], []⟩, ⟨[], []⟩, [], [⟨.try_, 0, [], [], true, []⟩], []⟩

theorem c4_end_operator_witness :
    FVContext.step limW c4CtxW .end_
      = .error (.validation "end may not occur in try context") :=
  (c4_end_operator limW c4CtxW ⟨.try_, 0, [], [], true, []⟩ [] rfl).1 rfl

/-- C1 (amended): in an unreachable frame with the operand stack at the
frame's floor, peeking or popping an operand yields the bottom/sentinel type
`none` (not `any`), which satisfies every expected type under `isSubtype`;
an untyped `select` executed in such a state pushes `none` as its result. -/
theorem c1_unreachable_yields_none (frame : ControlContext) (stack : List ValueType)
    (context : String) (operandDepth : Nat) (expectedType : ValueType)
    (lim : Limits) (ctx : FVContext)
    (hunreach : frame.isReachable = false)
    (hfloor : stack.length = frame.outerStackSize) :
    peekAndValidateOperand frame stack context operandDepth expectedType
        = .ok ValueType.none
    ∧ popAndValidateOperand frame stack context expectedType
        = .ok (ValueType.none, stack)
    ∧ isSubtype ValueType.none expectedType = true
    ∧ (∀ frame2 rest, ctx.controlStack = frame2 :: rest → frame2.isReachable = false →
        ctx.stack.length = frame2.outerStackSize →
        FVContext.step lim ctx (.select .any)
          = .ok { ctx with stack := ValueType.none :: ctx.stack }) := by
  refine ⟨peek_unreachable_bottom frame stack context operandDepth expectedType hunreach
      (by omega),
    pop_at_floor_unreachable frame stack context expectedType hunreach hfloor,
    isSubtype_none_left expectedType, ?_⟩
  intro frame2 rest hcs hun2 hfl2
  have hpop : ∀ (c : String) (t : ValueType), FVContext.popOperand ctx c t
      = .ok (ValueType.none, ctx) := by
    intro c t
    unfold FVContext.popOperand
    rw [hcs]
    dsimp only
    rw [pop_at_floor_unreachable frame2 ctx.stack c t hun2 hfl2]
    dsimp only
    rw [← hcs]
  simp only [FVContext.step]
  rw [hpop "select condition" .i32]
  dsimp only
  rw [if_pos trivial]
  rw [hpop "select false value" .any]
  dsimp only
  rw [hpop "select true value" .any]
  dsimp only
  rw [if_neg (by simp)]
  rw [if_pos rfl]
  rfl

def c1CtxCE : FVContext :=
  ⟨mW, ⟨0, [], []⟩, ⟨[], []⟩, [], [⟨.block, 0, [], [], false, []⟩], []⟩

/-- C1 (counterexample): with the top frame unreachable and the stack at the
floor, peeking yields `none`, an untyped select pushes `none`, and `none` is
a different type than `any` — so the claim that `any` is yielded/pushed is
false on the code. -/
theorem c1_counterexample :
    peekAndValidateOperand ⟨.block, 0, [], [], false, []⟩ [] "select false value" 0
        ValueType.i32 = .ok ValueType.none
    ∧ FVContext.step limW c1CtxCE (.select .any)
        = .ok { c1CtxCE with stack := [ValueType.none] }
    ∧ ValueType.none ≠ ValueType.any :=
  ⟨rfl, rfl, by decide⟩

def c1CtxW : FVContext :=
  ⟨mW, ⟨0, [], []⟩, ⟨[], []⟩, [], [⟨.block, 0, [], [], false, []⟩], []⟩

theorem c1_unreachable_yields_none_witness :
    popAndValidateOperand ⟨.block, 0, [], [], false, []⟩ [] "x" ValueType.i32
        = .ok (ValueType.none, [])
    ∧ FVContext.step limW c1CtxW (.select .any)
        = .ok { c1CtxW with stack := [ValueType.none] } :=
  ⟨(c1_unreachable_yields_none ⟨.block, 0, [], [], false, []⟩ [] "x" 0 ValueType.i32
      limW c1CtxW rfl rfl).2.1,
   (c1_unreachable_yields_none ⟨.block, 0, [], [], false, []⟩ [] "x" 0 ValueType.i32
      limW c1CtxW rfl rfl).2.2.2 ⟨.block, 0, [], [], false, []⟩ [] rfl rfl rfl⟩

/-! Lemmas for C3: characterizing the per-target loop of `br_table`. -/

/-- One `br_table` target passes: its frame resolves, its branch-param arity
matches the default target's, and its params peek successfully against the
current operand stack. -/
def brTableTargetOk (ctx : FVContext) (defaultParams : List ValueType) (d : Nat) : Prop :=
  ∃ target, ctx.getBranchTargetByDepth d = .ok target
    ∧ target.params.length = defaultParams.length
    ∧ ∃ frame fs, ctx.controlStack = frame :: fs
        ∧ peekAndValidateTypeTuple frame ctx.stack "br_table argument" target.params = .ok ()

theorem brTableCheckTargets_ok_iff (ctx : FVContext) (defaultParams : List ValueType) :
    ∀ targetDepths : List Nat,
      brTableCheckTargets ctx defaultParams targetDepths = .ok ()
        ↔ ∀ d ∈ targetDepths, brTableTargetOk ctx defaultParams d := by
  intro tds
  induction tds with
  | nil => simp [brTableCheckTargets]
  | cons d tds' ih =>
    unfold brTableCheckTargets
    cases hbt : ctx.getBranchTargetByDepth d with
    | error e =>
      dsimp only
      constructor
      · intro h; exact absurd h (by simp)
      · intro h
        obtain ⟨t, ht, -, -⟩ := h d (by simp)
        rw [hbt] at ht
        exact absurd ht (by simp)
    | ok target =>
      dsimp only
      by_cases harity : target.params.length ≠ defaultParams.length
      · rw [if_pos harity]
        constructor
        · intro h; exact absurd h (by simp)
        · intro h
          obtain ⟨t, ht, hlen, -⟩ := h d (by simp)
          rw [hbt] at ht
          injection ht with ht
          subst ht
          exact absurd hlen harity
      · rw [if_neg harity]
        cases hcs : ctx.controlStack with
        | nil =>
          dsimp only
          constructor
          · intro h; exact absurd h (by simp)
          · intro h
            obtain ⟨t, -, -, f, fs, hcs', -⟩ := h d (by simp)
            rw [hcs] at hcs'
            exact absurd hcs' (by simp)
        | cons frame fs =>
          dsimp only
          cases hpk : peekAndValidateTypeTuple frame ctx.stack "br_table argument"
              target.params with
          | error e =>
            dsimp only
            constructor
            · intro h; exact absurd h (by simp)
            · intro h
              obtain ⟨t, ht, -, f', fs', hcs', hpk'⟩ := h d (by simp)
              rw [hbt] at ht
              injection ht with ht
              subst ht
              rw [hcs] at hcs'
              injection hcs' with h1 h2
              subst h1
              rw [hpk] at hpk'
              exact absurd hpk' (by simp)
          | ok u =>
            cases u
            dsimp only
            rw [ih]
            constructor
            · intro h
              intro d' hd'
              rcases List.mem_cons.mp hd' with rfl | hd'
              · exact ⟨target, hbt, by omega, frame, fs, hcs, hpk⟩
              · exact h d' hd'
            · intro h d' hd'
              exact h d' (List.mem_cons_of_mem _ hd')

theorem brTableCheckTargets_first_mismatch (ctx : FVContext)
    (defaultParams : List ValueType) :
    ∀ (pre : List Nat) (d : Nat) (post : List Nat),
      (∀ d' ∈ pre, brTableTargetOk ctx defaultParams d') →
      ∀ target, ctx.getBranchTargetByDepth d = .ok target →
        target.params.length ≠ defaultParams.length →
        brTableCheckTargets ctx defaultParams (pre ++ d :: post)
          = .error (.validation
              "br_table targets must all take the same number of parameters") := by
  intro pre
  induction pre with
  | nil =>
    intro d post _ target ht harity
    rw [List.nil_append]
    unfold brTableCheckTargets
    rw [ht]
    dsimp only
    rw [if_pos harity]
  | cons d' pre' ih =>
    intro d post hpre target ht harity
    obtain ⟨t', ht', hlen', frame, fs, hcs, hpeek⟩ := hpre d' (by simp)
    rw [List.cons_append]
    unfold brTableCheckTargets
    rw [ht']
    dsimp only
    rw [if_neg (by omega)]
    rw [hcs]
    dsimp only
    rw [hpeek]
    dsimp only
    exact ih d post (fun x hx => hpre x (by simp [hx])) target ht harity

/-- C3 (amended): `br_table` pops the i32 index first; the targets are then
processed in order, each target's branch-param arity being checked against
the default target's (failing with the arity error) and its params being
peeked non-destructively (failing with that peek's error) before the next
target is examined — so an earlier target's peek failure precedes a later
target's arity failure; when every target passes, the default target's
params are popped and the frame becomes unreachable. -/
theorem c3_br_table_amended (lim : Limits) (ctx : FVContext) (bti dtd : Nat) :
    (∀ e, ctx.popOperand "br_table index" .i32 = .error e →
      FVContext.step lim ctx (.br_table bti dtd) = .error e)
    ∧ (∀ a ctx1 defaultTarget,
        ctx.popOperand "br_table index" .i32 = .ok (a, ctx1) →
        ctx1.getBranchTargetByDepth dtd = .ok defaultTarget →
        bti < ctx.functionDef.branchTables.length →
        ((brTableCheckTargets ctx1 defaultTarget.params
            (ctx.functionDef.branchTables.getD bti []) = .ok ()
          ↔ ∀ d ∈ ctx.functionDef.branchTables.getD bti [],
              brTableTargetOk ctx1 defaultTarget.params d)
         ∧ (∀ e, brTableCheckTargets ctx1 defaultTarget.params
              (ctx.functionDef.branchTables.getD bti []) = .error e →
            FVContext.step lim ctx (.br_table bti dtd) = .error e)
         ∧ (brTableCheckTargets ctx1 defaultTarget.params
              (ctx.functionDef.branchTables.getD bti []) = .ok () →
            FVContext.step lim ctx (.br_table bti dtd)
              = (match ctx1.popTuple "br_table argument" defaultTarget.params with
                 | .error e => .error e
                 | .ok ctx2 => ctx2.enterUnreachable))
         ∧ (∀ pre d post,
              ctx.functionDef.branchTables.getD bti [] = pre ++ d :: post →
              (∀ d' ∈ pre, brTableTargetOk ctx1 defaultTarget.params d') →
              ∀ target, ctx1.getBranchTargetByDepth d = .ok target →
                target.params.length ≠ defaultTarget.params.length →
                FVContext.step lim ctx (.br_table bti dtd)
                  = .error (.validation
                      "br_table targets must all take the same number of parameters")))) := by
  constructor
  · intro e he
    simp only [FVContext.step]
    rw [he]
  · intro a ctx1 defaultTarget hpop hdef hbti
    have hbase : ∀ r, brTableCheckTargets ctx1 defaultTarget.params
        (ctx.functionDef.branchTables.getD bti []) = r →
        FVContext.step lim ctx (.br_table bti dtd)
          = (match r with
             | .error e => .error e
             | .ok () =>
               match ctx1.popTuple "br_table argument" defaultTarget.params with
               | .error e => .error e
               | .ok ctx2 => ctx2.enterUnreachable) := by
      intro r hr
      simp only [FVContext.step]
      rw [hpop]
      dsimp only
      rw [hdef]
      dsimp only
      rw [if_neg (by omega)]
      rw [hr]
    refine ⟨brTableCheckTargets_ok_iff ctx1 defaultTarget.params _, ?_, ?_, ?_⟩
    · intro e he
      rw [hbase (.error e) he]
    · intro hok
      rw [hbase (.ok ()) hok]
    · intro pre d post hsplit hpre target ht harity
      have herr := brTableCheckTargets_first_mismatch ctx1 defaultTarget.params pre d post
        hpre target ht harity
      rw [hsplit] at hbase
      rw [hbase (.error (.validation
        "br_table targets must all take the same number of parameters")) herr]

def c3CtxCE : FVContext :=
  ⟨mW, ⟨0, [], [[0, 1]]⟩, ⟨[], []⟩, [],
   [⟨.block, 0, [.f32], [.f32], true, []⟩, ⟨.function, 0, [], [], true, []⟩],
   [.i32, .i64]⟩

/-- C3 (counterexample): branch table `[0, 1]` with default depth 0: target
depth 1 has branch-param arity 0, different from the default's arity 1, yet
validation fails with target 0's peek type-mismatch error rather than the
br_table arity error — the arity check is not performed for all targets
before the peeks. -/
theorem c3_counterexample :
    FVContext.step limW c3CtxCE (.br_table 0 0)
        = .error (.validation
            "type mismatch: expected f32 but got i64 in br_table argument operand")
    ∧ c3CtxCE.functionDef.branchTables.getD 0 [] = [0, 1]
    ∧ (c3CtxCE.controlStack.getD 1 default).params.length
        ≠ (c3CtxCE.controlStack.getD 0 default).params.length
    ∧ ("type mismatch: expected f32 but got i64 in br_table argument operand" : String)
        ≠ "br_table targets must all take the same number of parameters" :=
  ⟨rfl, rfl, by decide, by decide⟩

def c3CtxW : FVContext :=
  ⟨mW, ⟨0, [], [[]]⟩, ⟨[], []⟩, [], [⟨.function, 0, [], [], true, []⟩], []⟩

theorem c3_br_table_amended_witness :
    FVContext.step limW c3CtxW (.br_table 0 0)
      = .error (.validation
          "type mismatch: expected i32 but stack was empty in br_table index operand") :=
  (c3_br_table_amended limW c3CtxW 0 0).1
    (.validation "type mismatch: expected i32 but stack was empty in br_table index operand")
    rfl

/-! Machinery for C2 and C5: the stack-floor invariant and the control-stack
bookkeeping of the step function. -/

/-- `floorsOK cs n`: the top frame's floor is at most `n` (the operand-stack
height) and each deeper frame's floor is at most the floor of the frame
above it. -/
def floorsOK : List ControlContext → Nat → Prop
  | [], _ => True
  | f :: fs, n => f.outerStackSize ≤ n ∧ floorsOK fs f.outerStackSize

/-- The validator's stack invariant. -/
def Inv (ctx : FVContext) : Prop := floorsOK ctx.controlStack ctx.stack.length

theorem floorsOK_cons (f : ControlContext) (fs : List ControlContext) (n : Nat) :
    floorsOK (f :: fs) n ↔ (f.outerStackSize ≤ n ∧ floorsOK fs f.outerStackSize) :=
  Iff.rfl

theorem floorsOK_mono (cs : List ControlContext) (n m : Nat)
    (h : floorsOK cs n) (hm : n ≤ m) : floorsOK cs m := by
  cases cs with
  | nil => trivial
  | cons f fs => exact ⟨le_trans h.1 hm, h.2⟩

theorem popAndValidateOperand_stack (frame : ControlContext) (stack : List ValueType)
    (context : String) (t a : ValueType) (s' : List ValueType)
    (h : popAndValidateOperand frame stack context t = .ok (a, s')) :
    s'.length ≤ stack.length
    ∧ (frame.outerStackSize ≤ stack.length → frame.outerStackSize ≤ s'.length) := by
  unfold popAndValidateOperand at h
  cases hpk : peekAndValidateOperand frame stack context 0 t with
  | error e => rw [hpk] at h; exact absurd h (by simp)
  | ok at' =>
    rw [hpk] at h
    dsimp only at h
    by_cases hlt : frame.outerStackSize < stack.length
    · rw [if_pos hlt] at h
      injection h with h
      injection h with h1 h2
      subst h2
      rw [List.length_tail]
      constructor <;> omega
    · rw [if_neg hlt] at h
      injection h with h
      injection h with h1 h2
      subst h2
      exact ⟨le_refl _, fun hf => hf⟩

theorem popAndValidateOperandsRev_stack (frame : ControlContext) (context : String) :
    ∀ (ts : List ValueType) (stack s' : List ValueType),
      popAndValidateOperandsRev frame stack context ts = .ok s' →
      s'.length ≤ stack.length
      ∧ (frame.outerStackSize ≤ stack.length → frame.outerStackSize ≤ s'.length) := by
  intro ts
  induction ts with
  | nil =>
    intro stack s' h
    unfold popAndValidateOperandsRev at h
    injection h with h
    subst h
    exact ⟨le_refl _, fun hf => hf⟩
  | cons t ts' ih =>
    intro stack s' h
    unfold popAndValidateOperandsRev at h
    cases hp : popAndValidateOperand frame stack context t with
    | error e => rw [hp] at h; exact absurd h (by simp)
    | ok p =>
      obtain ⟨a, s1⟩ := p
      rw [hp] at h
      dsimp only at h
      have h1 := popAndValidateOperand_stack frame stack context t a s1 hp
      have h2 := ih s1 s' h
      exact ⟨le_trans h2.1 h1.1, fun hf => h2.2 (h1.2 hf)⟩

theorem popAndValidateTypeTuple_stack (frame : ControlContext) (stack : List ValueType)
    (context : String) (ts : List ValueType) (s' : List ValueType)
    (h : popAndValidateTypeTuple frame stack context ts = .ok s') :
    s'.length ≤ stack.length
    ∧ (frame.outerStackSize ≤ stack.length → frame.outerStackSize ≤ s'.length) :=
  popAndValidateOperandsRev_stack frame context ts.reverse stack s' h

/-- `FVContext.popTuple` leaves everything but the operand stack unchanged
and preserves the invariant. -/
theorem popTuple_spec (ctx : FVContext) (context : String) (ts : List ValueType)
    (ctx' : FVContext) (h : FVContext.popTuple ctx context ts = .ok ctx') :
    ctx'.controlStack = ctx.controlStack ∧ (Inv ctx → Inv ctx') := by
  unfold FVContext.popTuple at h
  cases hcs : ctx.controlStack with
  | nil => rw [hcs] at h; exact absurd h (by simp)
  | cons frame fs =>
    rw [hcs] at h
    dsimp only at h
    cases hp : popAndValidateTypeTuple frame ctx.stack context ts with
    | error e => rw [hp] at h; exact absurd h (by simp)
    | ok s' =>
      rw [hp] at h
      injection h with h
      subst h
      have hs := popAndValidateTypeTuple_stack frame ctx.stack context ts s' hp
      refine ⟨rfl, ?_⟩
      intro hInv
      unfold Inv at *
      dsimp only
      simp only [hcs] at hInv ⊢
      exact ⟨hs.2 hInv.1, hInv.2⟩

/-- `FVContext.popOperand` leaves everything but the operand stack unchanged
and preserves the invariant. -/
theorem popOperand_spec (ctx : FVContext) (context : String) (t a : ValueType)
    (ctx' : FVContext) (h : FVContext.popOperand ctx context t = .ok (a, ctx')) :
    ctx'.controlStack = ctx.controlStack ∧ (Inv ctx → Inv ctx') := by
  unfold FVContext.popOperand at h
  cases hcs : ctx.controlStack with
  | nil => rw [hcs] at h; exact absurd h (by simp)
  | cons frame fs =>
    rw [hcs] at h
    dsimp only at h
    cases hp : popAndValidateOperand frame ctx.stack context t with
    | error e => rw [hp] at h; exact absurd h (by simp)
    | ok p =>
      obtain ⟨a', s'⟩ := p
      rw [hp] at h
      dsimp only at h
      injection h with h
      injection h with h1 h2
      subst h2
      have hs := popAndValidateOperand_stack frame ctx.stack context t a' s' hp
      refine ⟨rfl, ?_⟩
      intro hInv
      unfold Inv at *
      dsimp only
      simp only [hcs] at hInv ⊢
      exact ⟨hs.2 hInv.1, hInv.2⟩

theorem pushOperandTuple_length : ∀ (ts stack : List ValueType),
    (pushOperandTuple stack ts).length = stack.length + ts.length := by
  intro ts
  induction ts with
  | nil => intro stack; rfl
  | cons t ts' ih =>
    intro stack
    unfold pushOperandTuple
    rw [ih]
    simp only [List.length_cons]
    omega

theorem pushOperand_spec (ctx : FVContext) (t : ValueType) :
    (ctx.pushOperand t).controlStack = ctx.controlStack
    ∧ (Inv ctx → Inv (ctx.pushOperand t)) := by
  refine ⟨rfl, ?_⟩
  intro hInv
  unfold Inv at *
  dsimp only [FVContext.pushOperand]
  exact floorsOK_mono _ _ _ hInv (by simp)

theorem pushTuple_spec (ctx : FVContext) (ts : List ValueType) :
    (ctx.pushTuple ts).controlStack = ctx.controlStack
    ∧ (Inv ctx → Inv (ctx.pushTuple ts)) := by
  refine ⟨rfl, ?_⟩
  intro hInv
  unfold Inv at *
  dsimp only [FVContext.pushTuple]
  rw [pushOperandTuple_length]
  exact floorsOK_mono _ _ _ hInv (by omega)

/-- Pushing a control frame (with `outerStackSize` = the current stack
height) and then pushing a tuple of operands preserves the invariant and
grows the control stack by one. -/
theorem pushControl_pushTuple_spec (ctx : FVContext) (ty : ControlContextType)
    (p r ep ts : List ValueType) :
    ((ctx.pushControlStack ty p r ep).pushTuple ts).controlStack.length
        = ctx.controlStack.length + 1
    ∧ (Inv ctx → Inv ((ctx.pushControlStack ty p r ep).pushTuple ts)) := by
  constructor
  · dsimp only [FVContext.pushTuple, FVContext.pushControlStack]
    simp
  · intro hInv
    unfold Inv at *
    dsimp only [FVContext.pushTuple, FVContext.pushControlStack]
    rw [pushOperandTuple_length, floorsOK_cons]
    dsimp only
    exact ⟨by omega, hInv⟩

theorem resizeStack_length (stack : List ValueType) (n : Nat) :
    (resizeStack stack n).length = n := by
  unfold resizeStack
  split
  · rw [List.length_drop]; omega
  · simp only [List.length_append, List.length_replicate]; omega

theorem enterUnreachable_spec (ctx ctx' : FVContext)
    (h : ctx.enterUnreachable = .ok ctx') :
    ctx'.controlStack.length = ctx.controlStack.length ∧ (Inv ctx → Inv ctx') := by
  unfold FVContext.enterUnreachable at h
  cases hcs : ctx.controlStack with
  | nil => rw [hcs] at h; exact absurd h (by simp)
  | cons frame fs =>
    rw [hcs] at h
    dsimp only at h
    injection h with h
    subst h
    constructor
    · dsimp only; simp [hcs]
    · intro hInv
      unfold Inv at *
      simp only [hcs] at hInv
      dsimp only
      rw [floorsOK_cons]
      dsimp only
      rw [resizeStack_length]
      exact ⟨le_refl _, hInv.2⟩

theorem validateCatch_spec (ctx ctx' : FVContext) (h : ctx.validateCatch = .ok ctx') :
    ctx'.controlStack.length = ctx.controlStack.length ∧ (Inv ctx → Inv ctx') := by
  unfold FVContext.validateCatch at h
  cases hcs : ctx.controlStack with
  | nil => rw [hcs] at h; exact absurd h (by simp)
  | cons frame fs =>
    rw [hcs] at h
    dsimp only at h
    cases hp : popAndValidateTypeTuple frame ctx.stack "try result" frame.results with
    | error e => rw [hp] at h; exact absurd h (by simp)
    | ok s' =>
      rw [hp] at h
      dsimp only at h
      split at h
      · exact absurd h (by simp)
      · split at h
        · rename_i hlen htc
          injection h with h
          subst h
          constructor
          · dsimp only; simp [hcs]
          · intro hInv
            unfold Inv at *
            simp only [hcs] at hInv
            dsimp only
            rw [floorsOK_cons]
            dsimp only
            exact ⟨by omega, hInv.2⟩
        · exact absurd h (by simp)

/-- Operators that push a control frame (`block`, `loop`, `if`, `try`). -/
def pushWeight : Operator → Nat
  | .block _ => 1
  | .loop _ => 1
  | .if_ _ => 1
  | .try_ _ => 1
  | _ => 0

/-- Operators that pop a control frame (`end`). -/
def endWeight : Operator → Nat
  | .end_ => 1
  | _ => 0

theorem pushTuple_controlLength (ctx : FVContext) (ts : List ValueType) :
    (ctx.pushTuple ts).controlStack.length = ctx.controlStack.length := rfl

theorem pushOperand_controlLength (ctx : FVContext) (t : ValueType) :
    (ctx.pushOperand t).controlStack.length = ctx.controlStack.length := rfl

/-- Every successful step preserves the stack-floor invariant, and changes
the control-stack size by exactly `pushWeight op - endWeight op`. -/
theorem step_spec (lim : Limits) (ctx ctx' : FVContext) (op : Operator)
    (h : FVContext.step lim ctx op = .ok ctx') :
    (Inv ctx → Inv ctx')
    ∧ ctx'.controlStack.length + endWeight op
        = ctx.controlStack.length + pushWeight op := by
  cases op with
  | block type =>
    simp only [FVContext.step] at h
    cases hv : validateBlockType ctx.module type with
    | error e => rw [hv] at h; exact absurd h (by simp)
    | ok t =>
      rw [hv] at h
      dsimp only at h
      cases hp : ctx.popTuple "block arguments" t.params with
      | error e => rw [hp] at h; exact absurd h (by simp)
      | ok ctx1 =>
        rw [hp] at h
        dsimp only at h
        injection h with h
        subst h
        have hps := popTuple_spec ctx _ _ ctx1 hp
        have hpp := pushControl_pushTuple_spec ctx1 .block t.results t.results [] t.params
        refine ⟨fun hInv => hpp.2 (hps.2 hInv), ?_⟩
        have e1 : ctx1.controlStack.length = ctx.controlStack.length := by rw [hps.1]
        simp only [endWeight, pushWeight, hpp.1]
        omega
  | loop type =>
    simp only [FVContext.step] at h
    cases hv : validateBlockType ctx.module type with
    | error e => rw [hv] at h; exact absurd h (by simp)
    | ok t =>
      rw [hv] at h
      dsimp only at h
      cases hp : ctx.popTuple "loop arguments" t.params with
      | error e => rw [hp] at h; exact absurd h (by simp)
      | ok ctx1 =>
        rw [hp] at h
        dsimp only at h
        injection h with h
        subst h
        have hps := popTuple_spec ctx _ _ ctx1 hp
        have hpp := pushControl_pushTuple_spec ctx1 .loop t.params t.results [] t.params
        refine ⟨fun hInv => hpp.2 (hps.2 hInv), ?_⟩
        have e1 : ctx1.controlStack.length = ctx.controlStack.length := by rw [hps.1]
        simp only [endWeight, pushWeight, hpp.1]
        omega
  | if_ type =>
    simp only [FVContext.step] at h
    cases hv : validateBlockType ctx.module type with
    | error e => rw [hv] at h; exact absurd h (by simp)
    | ok t =>
      rw [hv] at h
      dsimp only at h
      cases hc : ctx.popOperand "if condition" .i32 with
      | error e => rw [hc] at h; exact absurd h (by simp)
      | ok p =>
        obtain ⟨a, ctx1⟩ := p
        rw [hc] at h
        dsimp only at h
        cases hp : ctx1.popTuple "if arguments" t.params with
        | error e => rw [hp] at h; exact absurd h (by simp)
        | ok ctx2 =>
          rw [hp] at h
          dsimp only at h
          injection h with h
          subst h
          have h1 := popOperand_spec ctx _ _ a ctx1 hc
          have h2 := popTuple_spec ctx1 _ _ ctx2 hp
          have hpp := pushControl_pushTuple_spec ctx2 .ifThen t.results t.results t.params
            t.params
          refine ⟨fun hInv => hpp.2 (h2.2 (h1.2 hInv)), ?_⟩
          have e1 : ctx1.controlStack.length = ctx.controlStack.length := by rw [h1.1]
          have e2 : ctx2.controlStack.length = ctx1.controlStack.length := by rw [h2.1]
          simp only [endWeight, pushWeight, hpp.1]
          omega
  | else_ =>
    simp only [FVContext.step] at h
    cases hcs : ctx.controlStack with
    | nil => rw [hcs] at h; exact absurd h (by simp)
    | cons frame fs =>
      rw [hcs] at h
      dsimp only at h
      split at h
      · exact absurd h (by simp)
      · cases hp : popAndValidateTypeTuple frame ctx.stack "if result" frame.results with
        | error e => rw [hp] at h; exact absurd h (by simp)
        | ok s' =>
          rw [hp] at h
          dsimp only at h
          split at h
          · exact absurd h (by simp)
          · rename_i hnt hlen
            injection h with h
            subst h
            constructor
            · intro hInv
              unfold Inv at *
              simp only [hcs] at hInv
              dsimp only
              rw [floorsOK_cons]
              dsimp only
              rw [pushOperandTuple_length]
              exact ⟨by omega, hInv.2⟩
            · simp [hcs, endWeight, pushWeight]
  | end_ =>
    simp only [FVContext.step] at h
    cases hcs : ctx.controlStack with
    | nil => rw [hcs] at h; exact absurd h (by simp)
    | cons frame fs =>
      rw [hcs] at h
      dsimp only at h
      split at h
      · exact absurd h (by simp)
      · split at h
        · exact absurd h (by simp)
        · cases hp : popAndValidateTypeTuple frame ctx.stack "end result" frame.results with
          | error e => rw [hp] at h; exact absurd h (by simp)
          | ok s' =>
            rw [hp] at h
            dsimp only at h
            split at h
            · exact absurd h (by simp)
            · rename_i h1 h2 hlen
              cases fs with
              | nil =>
                dsimp only at h
                injection h with h
                subst h
                constructor
                · intro _
                  unfold Inv
                  dsimp only
                  trivial
                · simp [hcs, endWeight, pushWeight]
              | cons g fs' =>
                dsimp only at h
                injection h with h
                subst h
                constructor
                · intro hInv
                  unfold Inv at *
                  simp only [hcs] at hInv
                  dsimp only
                  rw [pushOperandTuple_length]
                  exact floorsOK_mono _ _ _ hInv.2 (by omega)
                · simp [hcs, endWeight, pushWeight]
  | try_ type =>
    simp only [FVContext.step] at h
    cases hv : validateBlockType ctx.module type with
    | error e => rw [hv] at h; exact absurd h (by simp)
    | ok t =>
      rw [hv] at h
      dsimp only at h
      split at h
      · exact absurd h (by simp)
      · cases hp : ctx.popTuple "try arguments" t.params with
        | error e => rw [hp] at h; exact absurd h (by simp)
        | ok ctx1 =>
          rw [hp] at h
          dsimp only at h
          injection h with h
          subst h
          have hps := popTuple_spec ctx _ _ ctx1 hp
          have hpp := pushControl_pushTuple_spec ctx1 .try_ t.results t.results [] t.params
          refine ⟨fun hInv => hpp.2 (hps.2 hInv), ?_⟩
          have e1 : ctx1.controlStack.length = ctx.controlStack.length := by rw [hps.1]
          simp only [endWeight, pushWeight, hpp.1]
          omega
  | catch_ exceptionTypeIndex =>
    simp only [FVContext.step] at h
    split at h
    · exact absurd h (by simp)
    · split at h
      · exact absurd h (by simp)
      · try dsimp only at h
        cases hv : ctx.validateCatch with
        | error e => rw [hv] at h; exact absurd h (by simp)
        | ok ctx1 =>
          rw [hv] at h
          dsimp only at h
          injection h with h
          subst h
          have h1 := validateCatch_spec ctx ctx1 hv
          have h2 := pushTuple_spec ctx1
            (ctx.module.exceptionTypes.getType exceptionTypeIndex).params
          refine ⟨fun hInv => h2.2 (h1.2 hInv), ?_⟩
          simp only [endWeight, pushWeight, pushTuple_controlLength]
          omega
  | catch_all =>
    simp only [FVContext.step] at h
    split at h
    · exact absurd h (by simp)
    · cases hv : ctx.validateCatch with
      | error e => rw [hv] at h; exact absurd h (by simp)
      | ok ctx1 =>
        rw [hv] at h
        dsimp only at h
        injection h with h
        subst h
        have h1 := validateCatch_spec ctx ctx1 hv
        refine ⟨h1.2, ?_⟩
        have e1 := h1.1
        simp only [endWeight, pushWeight]
        omega
  | return_ =>
    simp only [FVContext.step] at h
    cases hp : ctx.popTuple "ret" ctx.functionType.results with
    | error e => rw [hp] at h; exact absurd h (by simp)
    | ok ctx1 =>
      rw [hp] at h
      dsimp only at h
      have h1 := popTuple_spec ctx _ _ ctx1 hp
      have h2 := enterUnreachable_spec ctx1 ctx' h
      refine ⟨fun hInv => h2.2 (h1.2 hInv), ?_⟩
      have e1 : ctx1.controlStack.length = ctx.controlStack.length := by rw [h1.1]
      simp only [endWeight, pushWeight]
      omega
  | br targetDepth =>
    simp only [FVContext.step] at h
    cases hb : ctx.getBranchTargetByDepth targetDepth with
    | error e => rw [hb] at h; exact absurd h (by simp)
    | ok target =>
      rw [hb] at h
      dsimp only at h
      cases hp : ctx.popTuple "br argument" target.params with
      | error e => rw [hp] at h; exact absurd h (by simp)
      | ok ctx1 =>
        rw [hp] at h
        dsimp only at h
        have h1 := popTuple_spec ctx _ _ ctx1 hp
        have h2 := enterUnreachable_spec ctx1 ctx' h
        refine ⟨fun hInv => h2.2 (h1.2 hInv), ?_⟩
        have e1 : ctx1.controlStack.length = ctx.controlStack.length := by rw [h1.1]
        simp only [endWeight, pushWeight]
        omega
  | br_if targetDepth =>
    simp only [FVContext.step] at h
    cases hb : ctx.getBranchTargetByDepth targetDepth with
    | error e => rw [hb] at h; exact absurd h (by simp)
    | ok target =>
      rw [hb] at h
      dsimp only at h
      cases hc : ctx.popOperand "br_if condition" .i32 with
      | error e => rw [hc] at h; exact absurd h (by simp)
      | ok p =>
        obtain ⟨a, ctx1⟩ := p
        rw [hc] at h
        dsimp only at h
        cases hp : ctx1.popTuple "br_if argument" target.params with
        | error e => rw [hp] at h; exact absurd h (by simp)
        | ok ctx2 =>
          rw [hp] at h
          dsimp only at h
          injection h with h
          subst h
          have h1 := popOperand_spec ctx _ _ a ctx1 hc
          have h2 := popTuple_spec ctx1 _ _ ctx2 hp
          have h3 := pushTuple_spec ctx2 target.params
          refine ⟨fun hInv => h3.2 (h2.2 (h1.2 hInv)), ?_⟩
          have e1 : ctx1.controlStack.length = ctx.controlStack.length := by rw [h1.1]
          have e2 : ctx2.controlStack.length = ctx1.controlStack.length := by rw [h2.1]
          simp only [endWeight, pushWeight, pushTuple_controlLength]
          omega
  | br_table branchTableIndex defaultTargetDepth =>
    simp only [FVContext.step] at h
    cases hc : ctx.popOperand "br_table index" .i32 with
    | error e => rw [hc] at h; exact absurd h (by simp)
    | ok p =>
      obtain ⟨a, ctx1⟩ := p
      rw [hc] at h
      dsimp only at h
      cases hb : ctx1.getBranchTargetByDepth defaultTargetDepth with
      | error e => rw [hb] at h; exact absurd h (by simp)
      | ok defaultTarget =>
        rw [hb] at h
        dsimp only at h
        split at h
        · exact absurd h (by simp)
        · cases hl : brTableCheckTargets ctx1 defaultTarget.params
              (ctx.functionDef.branchTables.getD branchTableIndex []) with
          | error e => rw [hl] at h; exact absurd h (by simp)
          | ok u =>
            cases u
            rw [hl] at h
            dsimp only at h
            cases hp : ctx1.popTuple "br_table argument" defaultTarget.params with
            | error e => rw [hp] at h; exact absurd h (by simp)
            | ok ctx2 =>
              rw [hp] at h
              dsimp only at h
              have h1 := popOperand_spec ctx _ _ a ctx1 hc
              have h2 := popTuple_spec ctx1 _ _ ctx2 hp
              have h3 := enterUnreachable_spec ctx2 ctx' h
              refine ⟨fun hInv => h3.2 (h2.2 (h1.2 hInv)), ?_⟩
              have e1 : ctx1.controlStack.length = ctx.controlStack.length := by rw [h1.1]
              have e2 : ctx2.controlStack.length = ctx1.controlStack.length := by rw [h2.1]
              simp only [endWeight, pushWeight]
              omega
  | unreachable =>
    simp only [FVContext.step] at h
    have h1 := enterUnreachable_spec ctx ctx' h
    refine ⟨h1.2, ?_⟩
    simp only [endWeight, pushWeight]
    omega
  | drop =>
    simp only [FVContext.step] at h
    cases hc : ctx.popOperand "drop" .any with
    | error e => rw [hc] at h; exact absurd h (by simp)
    | ok p =>
      obtain ⟨a, ctx1⟩ := p
      rw [hc] at h
      dsimp only at h
      injection h with h
      subst h
      have h1 := popOperand_spec ctx _ _ a ctx1 hc
      refine ⟨h1.2, ?_⟩
      have e1 : ctx1.controlStack.length = ctx.controlStack.length := by rw [h1.1]
      simp only [endWeight, pushWeight]
      omega
  | select type =>
    simp only [FVContext.step] at h
    cases hc : ctx.popOperand "select condition" .i32 with
    | error e => rw [hc] at h; exact absurd h (by simp)
    | ok p =>
      obtain ⟨a, ctx1⟩ := p
      rw [hc] at h
      dsimp only at h
      have h1 := popOperand_spec ctx _ _ a ctx1 hc
      have e1 : ctx1.controlStack.length = ctx.controlStack.length := by rw [h1.1]
      split at h
      · cases hf : ctx1.popOperand "select false value" .any with
        | error e => rw [hf] at h; exact absurd h (by simp)
        | ok p =>
          obtain ⟨falseType, ctx2⟩ := p
          rw [hf] at h
          dsimp only at h
          cases ht : ctx2.popOperand "select true value" .any with
          | error e => rw [ht] at h; exact absurd h (by simp)
          | ok p =>
            obtain ⟨trueType, ctx3⟩ := p
            rw [ht] at h
            dsimp only at h
            have h2 := popOperand_spec ctx1 _ _ falseType ctx2 hf
            have h3 := popOperand_spec ctx2 _ _ trueType ctx3 ht
            have e2 : ctx2.controlStack.length = ctx1.controlStack.length := by rw [h2.1]
            have e3 : ctx3.controlStack.length = ctx2.controlStack.length := by rw [h3.1]
            split at h
            · exact absurd h (by simp)
            · split at h
              · injection h with h
                subst h
                refine ⟨fun hInv => (pushOperand_spec ctx3 trueType).2
                  (h3.2 (h2.2 (h1.2 hInv))), ?_⟩
                simp only [endWeight, pushWeight, pushOperand_controlLength]
                omega
              · split at h
                · injection h with h
                  subst h
                  refine ⟨fun hInv => (pushOperand_spec ctx3 falseType).2
                    (h3.2 (h2.2 (h1.2 hInv))), ?_⟩
                  simp only [endWeight, pushWeight, pushOperand_controlLength]
                  omega
                · split at h
                  · exact absurd h (by simp)
                  · injection h with h
                    subst h
                    refine ⟨fun hInv => (pushOperand_spec ctx3 falseType).2
                      (h3.2 (h2.2 (h1.2 hInv))), ?_⟩
                    simp only [endWeight, pushWeight, pushOperand_controlLength]
                    omega
      · split at h
        · exact absurd h (by simp)
        · cases hv : validateValueType ctx.module.featureSpec type with
          | error e => rw [hv] at h; exact absurd h (by simp)
          | ok u =>
            cases u
            rw [hv] at h
            dsimp only at h
            cases hf : ctx1.popOperand "select false value" type with
            | error e => rw [hf] at h; exact absurd h (by simp)
            | ok p =>
              obtain ⟨b, ctx2⟩ := p
              rw [hf] at h
              dsimp only at h
              cases ht : ctx2.popOperand "select true value" type with
              | error e => rw [ht] at h; exact absurd h (by simp)
              | ok p =>
                obtain ⟨c, ctx3⟩ := p
                rw [ht] at h
                dsimp only at h
                injection h with h
                subst h
                have h2 := popOperand_spec ctx1 _ _ b ctx2 hf
                have h3 := popOperand_spec ctx2 _ _ c ctx3 ht
                have e2 : ctx2.controlStack.length = ctx1.controlStack.length := by
                  rw [h2.1]
                have e3 : ctx3.controlStack.length = ctx2.controlStack.length := by
                  rw [h3.1]
                refine ⟨fun hInv => (pushOperand_spec ctx3 type).2
                  (h3.2 (h2.2 (h1.2 hInv))), ?_⟩
                simp only [endWeight, pushWeight, pushOperand_controlLength]
                omega
  | local_get variableIndex =>
    simp only [FVContext.step] at h
    cases hv : ctx.validateLocalIndex variableIndex with
    | error e => rw [hv] at h; exact absurd h (by simp)
    | ok t =>
      rw [hv] at h
      dsimp only at h
      injection h with h
      subst h
      refine ⟨(pushOperand_spec ctx t).2, ?_⟩
      simp only [endWeight, pushWeight, pushOperand_controlLength]
  | local_set variableIndex =>
    simp only [FVContext.step] at h
    cases hv : ctx.validateLocalIndex variableIndex with
    | error e => rw [hv] at h; exact absurd h (by simp)
    | ok t =>
      rw [hv] at h
      dsimp only at h
      cases hc : ctx.popOperand "local.set" t with
      | error e => rw [hc] at h; exact absurd h (by simp)
      | ok p =>
        obtain ⟨a, ctx1⟩ := p
        rw [hc] at h
        dsimp only at h
        injection h with h
        subst h
        have h1 := popOperand_spec ctx _ _ a ctx1 hc
        refine ⟨h1.2, ?_⟩
        have e1 : ctx1.controlStack.length = ctx.controlStack.length := by rw [h1.1]
        simp only [endWeight, pushWeight]
        omega
  | local_tee variableIndex =>
    simp only [FVContext.step] at h
    cases hv : ctx.validateLocalIndex variableIndex with
    | error e => rw [hv] at h; exact absurd h (by simp)
    | ok t =>
      rw [hv] at h
      dsimp only at h
      cases hc : ctx.popOperand "local.tee" t with
      | error e => rw [hc] at h; exact absurd h (by simp)
      | ok p =>
        obtain ⟨operandType, ctx1⟩ := p
        rw [hc] at h
        dsimp only at h
        injection h with h
        subst h
        have h1 := popOperand_spec ctx _ _ operandType ctx1 hc
        refine ⟨fun hInv => (pushOperand_spec ctx1 operandType).2 (h1.2 hInv), ?_⟩
        have e1 : ctx1.controlStack.length = ctx.controlStack.length := by rw [h1.1]
        simp only [endWeight, pushWeight, pushOperand_controlLength]
        omega
  | global_get variableIndex =>
    simp only [FVContext.step] at h
    cases hv : validateGlobalIndex ctx.module variableIndex false false false "global.get" with
    | error e => rw [hv] at h; exact absurd h (by simp)
    | ok t =>
      rw [hv] at h
      dsimp only at h
      injection h with h
      subst h
      refine ⟨(pushOperand_spec ctx t).2, ?_⟩
      simp only [endWeight, pushWeight, pushOperand_controlLength]
  | global_set variableIndex =>
    simp only [FVContext.step] at h
    cases hv : validateGlobalIndex ctx.module variableIndex true false false "global.set" with
    | error e => rw [hv] at h; exact absurd h (by simp)
    | ok t =>
      rw [hv] at h
      dsimp only at h
      cases hc : ctx.popOperand "global.set" t with
      | error e => rw [hc] at h; exact absurd h (by simp)
      | ok p =>
        obtain ⟨a, ctx1⟩ := p
        rw [hc] at h
        dsimp only at h
        injection h with h
        subst h
        have h1 := popOperand_spec ctx _ _ a ctx1 hc
        refine ⟨h1.2, ?_⟩
        have e1 : ctx1.controlStack.length = ctx.controlStack.length := by rw [h1.1]
        simp only [endWeight, pushWeight]
        omega
  | table_get tableIndex =>
    simp only [FVContext.step] at h
    split at h
    · exact absurd h (by simp)
    · try dsimp only at h
      cases hc : ctx.popOperand "table.get" .i32 with
      | error e => rw [hc] at h; exact absurd h (by simp)
      | ok p =>
        obtain ⟨a, ctx1⟩ := p
        rw [hc] at h
        dsimp only at h
        injection h with h
        subst h
        have h1 := popOperand_spec ctx _ _ a ctx1 hc
        refine ⟨fun hInv => (pushOperand_spec ctx1 _).2 (h1.2 hInv), ?_⟩
        have e1 : ctx1.controlStack.length = ctx.controlStack.length := by rw [h1.1]
        simp only [endWeight, pushWeight, pushOperand_controlLength]
        omega
  | table_set tableIndex =>
    simp only [FVContext.step] at h
    split at h
    · exact absurd h (by simp)
    · try dsimp only at h
      cases hc : ctx.popOperand "table.get"
          (asValueType (ctx.module.tables.getType tableIndex).elementType) with
      | error e => rw [hc] at h; exact absurd h (by simp)
      | ok p =>
        obtain ⟨a, ctx1⟩ := p
        rw [hc] at h
        dsimp only at h
        cases hc2 : ctx1.popOperand "table.get" .i32 with
        | error e => rw [hc2] at h; exact absurd h (by simp)
        | ok p =>
          obtain ⟨b, ctx2⟩ := p
          rw [hc2] at h
          dsimp only at h
          injection h with h
          subst h
          have h1 := popOperand_spec ctx _ _ a ctx1 hc
          have h2 := popOperand_spec ctx1 _ _ b ctx2 hc2
          refine ⟨fun hInv => h2.2 (h1.2 hInv), ?_⟩
          have e1 : ctx1.controlStack.length = ctx.controlStack.length := by rw [h1.1]
          have e2 : ctx2.controlStack.length = ctx1.controlStack.length := by rw [h2.1]
          simp only [endWeight, pushWeight]
          omega
  | table_grow tableIndex =>
    simp only [FVContext.step] at h
    split at h
    · exact absurd h (by simp)
    · try dsimp only at h
      cases hc : ctx.popOperand "table.grow" .i32 with
      | error e => rw [hc] at h; exact absurd h (by simp)
      | ok p =>
        obtain ⟨a, ctx1⟩ := p
        rw [hc] at h
        dsimp only at h
        cases hc2 : ctx1.popOperand "table.grow"
            (asValueType (ctx.module.tables.getType tableIndex).elementType) with
        | error e => rw [hc2] at h; exact absurd h (by simp)
        | ok p =>
          obtain ⟨b, ctx2⟩ := p
          rw [hc2] at h
          dsimp only at h
          injection h with h
          subst h
          have h1 := popOperand_spec ctx _ _ a ctx1 hc
          have h2 := popOperand_spec ctx1 _ _ b ctx2 hc2
          refine ⟨fun hInv => (pushOperand_spec ctx2 .i32).2 (h2.2 (h1.2 hInv)), ?_⟩
          have e1 : ctx1.controlStack.length = ctx.controlStack.length := by rw [h1.1]
          have e2 : ctx2.controlStack.length = ctx1.controlStack.length := by rw [h2.1]
          simp only [endWeight, pushWeight, pushOperand_controlLength]
          omega
  | table_fill tableIndex =>
    simp only [FVContext.step] at h
    split at h
    · exact absurd h (by simp)
    · try dsimp only at h
      cases hc : ctx.popOperand "table.fill" .i32 with
      | error e => rw [hc] at h; exact absurd h (by simp)
      | ok p =>
        obtain ⟨a, ctx1⟩ := p
        rw [hc] at h
        dsimp only at h
        cases hc2 : ctx1.popOperand "table.fill"
            (asValueType (ctx.module.tables.getType tableIndex).elementType) with
        | error e => rw [hc2] at h; exact absurd h (by simp)
        | ok p =>
          obtain ⟨b, ctx2⟩ := p
          rw [hc2] at h
          dsimp only at h
          cases hc3 : ctx2.popOperand "table.fill" .i32 with
          | error e => rw [hc3] at h; exact absurd h (by simp)
          | ok p =>
            obtain ⟨c, ctx3⟩ := p
            rw [hc3] at h
            dsimp only at h
            injection h with h
            subst h
            have h1 := popOperand_spec ctx _ _ a ctx1 hc
            have h2 := popOperand_spec ctx1 _ _ b ctx2 hc2
            have h3 := popOperand_spec ctx2 _ _ c ctx3 hc3
            refine ⟨fun hInv => h3.2 (h2.2 (h1.2 hInv)), ?_⟩
            have e1 : ctx1.controlStack.length = ctx.controlStack.length := by rw [h1.1]
            have e2 : ctx2.controlStack.length = ctx1.controlStack.length := by rw [h2.1]
            have e3 : ctx3.controlStack.length = ctx2.controlStack.length := by rw [h3.1]
            simp only [endWeight, pushWeight]
            omega
  | throw_ exceptionTypeIndex =>
    simp only [FVContext.step] at h
    split at h
    · exact absurd h (by simp)
    · split at h
      · exact absurd h (by simp)
      · try dsimp only at h
        cases hp : ctx.popTuple "exception arguments"
            (ctx.module.exceptionTypes.getType exceptionTypeIndex).params with
        | error e => rw [hp] at h; exact absurd h (by simp)
        | ok ctx1 =>
          rw [hp] at h
          dsimp only at h
          have h1 := popTuple_spec ctx _ _ ctx1 hp
          have h2 := enterUnreachable_spec ctx1 ctx' h
          refine ⟨fun hInv => h2.2 (h1.2 hInv), ?_⟩
          have e1 : ctx1.controlStack.length = ctx.controlStack.length := by rw [h1.1]
          simp only [endWeight, pushWeight]
          omega
  | rethrow catchDepth =>
    simp only [FVContext.step] at h
    split at h
    · exact absurd h (by simp)
    · cases hb : ctx.getBranchTargetByDepth catchDepth with
      | error e => rw [hb] at h; exact absurd h (by simp)
      | ok target =>
        rw [hb] at h
        dsimp only at h
        split at h
        · exact absurd h (by simp)
        · have h1 := enterUnreachable_spec ctx ctx' h
          refine ⟨h1.2, ?_⟩
          simp only [endWeight, pushWeight]
          omega
  | call functionIndex =>
    simp only [FVContext.step] at h
    cases hv : validateFunctionIndex ctx.module functionIndex with
    | error e => rw [hv] at h; exact absurd h (by simp)
    | ok calleeType =>
      rw [hv] at h
      dsimp only at h
      cases hp : ctx.popTuple "call arguments" calleeType.params with
      | error e => rw [hp] at h; exact absurd h (by simp)
      | ok ctx1 =>
        rw [hp] at h
        dsimp only at h
        injection h with h
        subst h
        have h1 := popTuple_spec ctx _ _ ctx1 hp
        refine ⟨fun hInv => (pushTuple_spec ctx1 calleeType.results).2 (h1.2 hInv), ?_⟩
        have e1 : ctx1.controlStack.length = ctx.controlStack.length := by rw [h1.1]
        simp only [endWeight, pushWeight, pushTuple_controlLength]
        omega
  | call_indirect tableIndex typeIndex =>
    simp only [FVContext.step] at h
    split at h
    · exact absurd h (by simp)
    · split at h
      · exact absurd h (by simp)
      · cases hv : validateFunctionType ctx.module lim.maxReturnValues typeIndex with
        | error e => rw [hv] at h; exact absurd h (by simp)
        | ok calleeType =>
          rw [hv] at h
          dsimp only at h
          cases hc : ctx.popOperand "call_indirect function index" .i32 with
          | error e => rw [hc] at h; exact absurd h (by simp)
          | ok p =>
            obtain ⟨a, ctx1⟩ := p
            rw [hc] at h
            dsimp only at h
            cases hp : ctx1.popTuple "call_indirect arguments" calleeType.params with
            | error e => rw [hp] at h; exact absurd h (by simp)
            | ok ctx2 =>
              rw [hp] at h
              dsimp only at h
              injection h with h
              subst h
              have h1 := popOperand_spec ctx _ _ a ctx1 hc
              have h2 := popTuple_spec ctx1 _ _ ctx2 hp
              refine ⟨fun hInv =>
                (pushTuple_spec ctx2 calleeType.results).2 (h2.2 (h1.2 hInv)), ?_⟩
              have e1 : ctx1.controlStack.length = ctx.controlStack.length := by rw [h1.1]
              have e2 : ctx2.controlStack.length = ctx1.controlStack.length := by rw [h2.1]
              simp only [endWeight, pushWeight, pushTuple_controlLength]
              omega
  | nonparametric nameString featureGate immOk paramTypes resultTypes =>
    simp only [FVContext.step] at h
    split at h
    · exact absurd h (by simp)
    · split at h
      · exact absurd h (by simp)
      · cases hp : ctx.popTuple nameString paramTypes with
        | error e => rw [hp] at h; exact absurd h (by simp)
        | ok ctx1 =>
          rw [hp] at h
          dsimp only at h
          injection h with h
          subst h
          have h1 := popTuple_spec ctx _ _ ctx1 hp
          refine ⟨fun hInv => (pushTuple_spec ctx1 resultTypes).2 (h1.2 hInv), ?_⟩
          have e1 : ctx1.controlStack.length = ctx.controlStack.length := by rw [h1.1]
          simp only [endWeight, pushWeight, pushTuple_controlLength]
          omega

theorem streamStep_spec (lim : Limits) (ctx ctx' : FVContext) (op : Operator)
    (h : streamStep lim ctx op = .ok ctx') :
    (Inv ctx → Inv ctx')
    ∧ ctx'.controlStack.length + endWeight op
        = ctx.controlStack.length + pushWeight op := by
  unfold streamStep at h
  split at h
  · exact absurd h (by simp)
  · exact step_spec lim ctx ctx' op h

def countPushes (ops : List Operator) : Nat := (ops.map pushWeight).sum

def countEnds (ops : List Operator) : Nat := (ops.map endWeight).sum

theorem runOps_spec (lim : Limits) :
    ∀ (ops : List Operator) (ctx ctx' : FVContext),
      runOps lim ctx ops = .ok ctx' →
      (Inv ctx → Inv ctx')
      ∧ ctx'.controlStack.length + countEnds ops
          = ctx.controlStack.length + countPushes ops := by
  intro ops
  induction ops with
  | nil =>
    intro ctx ctx' h
    unfold runOps at h
    injection h with h
    subst h
    exact ⟨id, by simp [countEnds, countPushes]⟩
  | cons op rest ih =>
    intro ctx ctx' h
    unfold runOps at h
    cases hs : streamStep lim ctx op with
    | error e => rw [hs] at h; exact absurd h (by simp)
    | ok ctx1 =>
      rw [hs] at h
      dsimp only at h
      have h1 := streamStep_spec lim ctx ctx1 op hs
      have h2 := ih ctx1 ctx' h
      refine ⟨fun hInv => h2.1 (h1.1 hInv), ?_⟩
      have e1 := h1.2
      have e2 := h2.2
      simp only [countEnds, countPushes, List.map_cons, List.sum_cons] at *
      omega

theorem initContext_spec (module : Module) (functionDef : FunctionDef) (ctx0 : FVContext)
    (h : initContext module functionDef = .ok ctx0) :
    ctx0.controlStack.length = 1 ∧ Inv ctx0 := by
  unfold initContext at h
  cases hv : validateTypeTuple module.featureSpec functionDef.nonParameterLocalTypes with
  | error e => rw [hv] at h; exact absurd h (by simp)
  | ok u =>
    cases u
    rw [hv] at h
    dsimp only at h
    injection h with h
    subst h
    refine ⟨rfl, ?_⟩
    unfold Inv
    exact ⟨Nat.le_refl 0, trivial⟩

/-- C2: every state reached from the initial context by an accepted operator
sequence keeps the operand-stack height at or above the top control frame's
`outerStackSize`; a pop performed in an unreachable frame with the stack
exactly at that floor removes nothing and succeeds (with the bottom type)
rather than failing with a stack-was-empty error, so repeated pops at the
floor leave the stack unchanged. -/
theorem c2_stack_floor_invariant (lim : Limits) (module : Module)
    (functionDef : FunctionDef) (ops : List Operator) (ctx0 ctx' : FVContext)
    (hinit : initContext module functionDef = .ok ctx0)
    (hrun : runOps lim ctx0 ops = .ok ctx') :
    (∀ frame fs, ctx'.controlStack = frame :: fs →
        frame.outerStackSize ≤ ctx'.stack.length)
    ∧ (∀ (frame : ControlContext) (stack : List ValueType) (context : String)
          (expectedType : ValueType),
        frame.isReachable = false → stack.length = frame.outerStackSize →
        popAndValidateOperand frame stack context expectedType
          = .ok (ValueType.none, stack)) := by
  have h0 := initContext_spec module functionDef ctx0 hinit
  have h1 := runOps_spec lim ops ctx0 ctx' hrun
  constructor
  · intro frame fs hcs
    have hInv := h1.1 h0.2
    unfold Inv at hInv
    rw [hcs] at hInv
    exact hInv.1
  · intro frame stack context expectedType hr hf
    exact pop_at_floor_unreachable frame stack context expectedType hr hf

def initCtxW : FVContext :=
  ⟨mW, ⟨0, [], []⟩, ⟨[], []⟩, [], [⟨.function, 0, [], [], true, []⟩], []⟩

theorem c2_stack_floor_invariant_witness :
    popAndValidateOperand ⟨.block, 2, [], [], false, []⟩ [ValueType.i32, ValueType.i64] "x"
        ValueType.f32 = .ok (ValueType.none, [ValueType.i32, ValueType.i64]) :=
  (c2_stack_floor_invariant limW mW ⟨0, [], []⟩ [] initCtxW initCtxW rfl rfl).2
    ⟨.block, 2, [], [], false, []⟩ [ValueType.i32, ValueType.i64] "x" ValueType.f32 rfl rfl

/-- C5: `finish()` fails with the end-of-code error exactly when the control
stack is non-empty; an accepted stream in which every pushed frame,
including the outermost function frame, was closed by a matching `end`
(i.e. the number of `end`s equals one plus the number of frame-pushing
operators) leaves the control stack empty, and `finish()` then succeeds. -/
theorem c5_finish (lim : Limits) (module : Module) (functionDef : FunctionDef)
    (ops : List Operator) (ctx0 ctx' : FVContext) :
    (∀ c : FVContext, finish c = .ok () ↔ c.controlStack = [])
    ∧ (∀ c : FVContext, c.controlStack ≠ [] →
        finish c = .error (.validation "end of code reached before end of function"))
    ∧ (initContext module functionDef = .ok ctx0 → runOps lim ctx0 ops = .ok ctx' →
        ctx'.controlStack.length + countEnds ops = 1 + countPushes ops
        ∧ (countEnds ops = 1 + countPushes ops → finish ctx' = .ok ())) := by
  refine ⟨?_, ?_, ?_⟩
  · intro c
    unfold finish
    constructor
    · intro h
      by_cases hc : c.controlStack.length ≠ 0
      · rw [if_pos hc] at h; exact absurd h (by simp)
      · exact List.length_eq_zero.mp (by omega)
    · intro h
      rw [if_neg (by simp [h])]
  · intro c hc
    unfold finish
    rw [if_pos (fun h0 => hc (List.length_eq_zero.mp h0))]
  · intro hinit hrun
    have h0 := initContext_spec module functionDef ctx0 hinit
    have h1 := runOps_spec lim ops ctx0 ctx' hrun
    have ha := h1.2
    have hb := h0.1
    have hlen : ctx'.controlStack.length + countEnds ops = 1 + countPushes ops := by omega
    refine ⟨hlen, ?_⟩
    intro heq
    unfold finish
    rw [if_neg (by omega)]

def c5CtxW : FVContext := ⟨mW, ⟨0, [], []⟩, ⟨[], []⟩, [], [], []⟩

theorem c5_finish_witness : finish c5CtxW = .ok () :=
  ((c5_finish limW mW ⟨0, [], []⟩ [.end_] initCtxW c5CtxW).2.2 rfl rfl).2 rfl

end WAVM
